import Mathlib

/-
Verification of the stride concurrent filesystem-traversal engine.

This file shallowly embeds the per-entry logic of the traversal engine
(WalkLimit, WalkLimitWithProgress, WalkLimitWithFilter, WalkLimitWithOptions),
the predicate evaluator (filePassesFilter, shouldSkipDir), the find layer
(matchFind, nameMatch, pathMatch, Find callback) and the template formatter
(formatCommand), together with the Go standard-library string and path
functions they depend on (strings.ReplaceAll, strings.Contains, strings.Split,
strings.Index, filepath.Clean, filepath.Dir, filepath.Base, filepath.Ext,
filepath.Match).  Machine integers are modelled as Int/Nat; fallible
operations return Option.  Loops whose Go termination argument is not
structural are given an explicit fuel parameter whose bound makes the
exhaustion branch unreachable on the inputs the source can produce.
-/

namespace Stride

/-! ## Go standard library: strings -/

/-- strings.Contains, on character lists.  An empty needle is contained in
every string, matching Go. -/
def containsSubstr (sub : List Char) : List Char → Bool
  | [] => sub.isEmpty
  | c :: cs => sub.isPrefixOf (c :: cs) || containsSubstr sub cs

/-- strings.Index, on character lists: index of the first occurrence of sub,
or none when absent. -/
def strIndexOf (sub : List Char) : List Char → Option Nat
  | [] => if sub.isEmpty then some 0 else none
  | c :: cs =>
    if sub.isPrefixOf (c :: cs) then some 0
    else (strIndexOf sub cs).map (· + 1)

/-- Fueled worker for strings.ReplaceAll.  Each step consumes at least one
character of s, so fuel = s.length always suffices; the fuel-0 branch is
unreachable on the wrapper below except with s already empty. -/
def replaceAllF (old new : List Char) : Nat → List Char → List Char
  | 0, s => s
  | _ + 1, [] => []
  | fuel + 1, c :: cs =>
    if old ≠ [] ∧ old.isPrefixOf (c :: cs) then
      new ++ replaceAllF old new fuel (List.drop (old.length - 1) cs)
    else
      c :: replaceAllF old new fuel cs

/-- strings.ReplaceAll (non-overlapping, left to right).  The source never
calls it with an empty old string. -/
def replaceAll (s old new : List Char) : List Char :=
  replaceAllF old new s.length s

/-- strings.Split with a single-character separator. -/
def splitChar (sep : Char) : List Char → List (List Char)
  | [] => [[]]
  | c :: cs =>
    if c = sep then [] :: splitChar sep cs
    else
      match splitChar sep cs with
      | h :: t => (c :: h) :: t
      | [] => [[c]]

/-- strings.Count with a single-character separator string. -/
def countChar (sep : Char) (s : List Char) : Nat :=
  s.count sep

/-! ## Go standard library: path/filepath Clean, Dir, Base, Ext -/

/-- The backtracking step of filepath.Clean for a ".." element: pop the last
output character unconditionally, then keep popping while the output is
longer than dotdot and the popped character is not a separator.  The output
buffer is kept in reverse order. -/
def cleanBacktrack (dotdot : Nat) : List Char → List Char
  | [] => []
  | c :: cs => if cs.length > dotdot ∧ c ≠ '/' then cleanBacktrack dotdot cs else cs

/-- Main loop of filepath.Clean (unix rules).  out is the output buffer in
reverse order; rem is the unread remainder of the path.  Every iteration
consumes at least one character of rem, so fuel = rem.length + 1 suffices
and the fuel-0 branch is unreachable from the wrapper. -/
def cleanLoop (rooted : Bool) : Nat → Nat → List Char → List Char → List Char
  | 0, _, out, _ => out
  | _ + 1, _, out, [] => out
  | fuel + 1, dotdot, out, '/' :: rem => cleanLoop rooted fuel dotdot out rem
  | fuel + 1, dotdot, out, '.' :: [] => cleanLoop rooted fuel dotdot out []
  | fuel + 1, dotdot, out, '.' :: '/' :: rem => cleanLoop rooted fuel dotdot out rem
  | fuel + 1, dotdot, out, '.' :: '.' :: [] =>
    if out.length > dotdot then
      cleanLoop rooted fuel dotdot (cleanBacktrack dotdot out) []
    else if !rooted then
      cleanLoop rooted fuel (out.length + (if out.length > 0 then 3 else 2))
        ('.' :: '.' :: (if out.length > 0 then '/' :: out else out)) []
    else
      cleanLoop rooted fuel dotdot out []
  | fuel + 1, dotdot, out, '.' :: '.' :: '/' :: rem =>
    if out.length > dotdot then
      cleanLoop rooted fuel dotdot (cleanBacktrack dotdot out) rem
    else if !rooted then
      cleanLoop rooted fuel (out.length + (if out.length > 0 then 3 else 2))
        ('.' :: '.' :: (if out.length > 0 then '/' :: out else out)) rem
    else
      cleanLoop rooted fuel dotdot out rem
  | fuel + 1, dotdot, out, c :: rem =>
    let out1 :=
      if (rooted ∧ out.length ≠ 1) ∨ (¬rooted ∧ out.length ≠ 0) then '/' :: out
      else out
    cleanLoop rooted fuel dotdot ((rem.takeWhile (· ≠ '/')).reverse ++ c :: out1)
      (rem.dropWhile (· ≠ '/'))

/-- filepath.Clean for unix paths. -/
def goClean (path : String) : String :=
  if path = "" then "."
  else
    let cs := path.toList
    let rooted := cs.head? = some '/'
    let out :=
      if rooted then cleanLoop true (cs.length + 1) 1 ['/'] cs.tail
      else cleanLoop false (cs.length + 1) 0 [] cs
    if out.length = 0 then "." else String.mk out.reverse

/-- filepath.Dir: everything up to and including the final separator,
cleaned. -/
def goDir (path : String) : String :=
  goClean (String.mk ((path.toList.reverse.dropWhile (· ≠ '/')).reverse))

/-- filepath.Base: the last element of the path after trailing separators
are removed. -/
def goBase (path : String) : String :=
  if path = "" then "."
  else
    let rev := path.toList.reverse.dropWhile (· = '/')
    if rev = [] then "/"
    else String.mk ((rev.takeWhile (· ≠ '/')).reverse)

/-- filepath.Ext: the suffix of the final element starting at the final
dot, or empty. -/
def goExtAux (acc : List Char) : List Char → String
  | [] => ""
  | c :: cs =>
    if c = '/' then ""
    else if c = '.' then String.mk (c :: acc)
    else goExtAux (c :: acc) cs

def goExt (path : String) : String :=
  goExtAux [] path.toList.reverse

/-! ## Go standard library: filepath.Match -/

/-- Result of matchChunk: a bad pattern, a failed match, or success with the
unconsumed remainder of the name. -/
inductive ChunkRes where
  | err
  | fail
  | ok (rest : List Char)
deriving DecidableEq, Repr

/-- getEsc from filepath.Match: read one possibly escaped character of a
character class. -/
def getEsc : List Char → Option (Char × List Char)
  | [] => none
  | c :: cs =>
    if c = '-' ∨ c = ']' then none
    else if c = '\\' then
      match cs with
      | [] => none
      | d :: ds => if ds.length = 0 then none else some (d, ds)
    else if cs.length = 0 then none else some (c, cs)

/-- The range-parsing loop of a character class.  acc is whether some range
matched r so far; nrange counts parsed ranges.  Each iteration consumes at
least one chunk character, so fuel = chunk.length + 1 suffices. -/
def parseRanges (r : Char) : Nat → Bool → Nat → List Char → Option (Bool × List Char)
  | 0, _, _, _ => none
  | fuel + 1, acc, nrange, chunk =>
    if chunk.head? = some ']' ∧ nrange > 0 then some (acc, chunk.tail)
    else
      match getEsc chunk with
      | none => none
      | some (lo, chunk1) =>
        match chunk1 with
        | '-' :: chunk2 =>
          match getEsc chunk2 with
          | none => none
          | some (hi, chunk3) =>
            parseRanges r fuel (acc || (decide (lo ≤ r) && decide (r ≤ hi)))
              (nrange + 1) chunk3
        | _ =>
          parseRanges r fuel (acc || (decide (lo ≤ r) && decide (r ≤ lo)))
            (nrange + 1) chunk1

/-- matchChunk from filepath.Match.  After a failure the chunk is still
scanned for well-formedness without consuming the name.  Each iteration
consumes at least one chunk character, so fuel = chunk.length + 1
suffices. -/
def matchChunkF : Nat → Bool → List Char → List Char → ChunkRes
  | 0, _, _, _ => .fail
  | _ + 1, failed, [], s => if failed then .fail else .ok s
  | fuel + 1, failed0, c :: cs, s =>
    let failed := failed0 || s.isEmpty
    if c = '[' then
      let r := if !failed then s.headD (Char.ofNat 0) else Char.ofNat 0
      let s1 := if !failed then s.tail else s
      let negated := cs.head? = some '^'
      let cs1 := if negated then cs.tail else cs
      match parseRanges r (cs1.length + 1) false 0 cs1 with
      | none => .err
      | some (m, rest) => matchChunkF fuel (failed || (m = negated)) rest s1
    else if c = '?' then
      let failed1 := if !failed then decide (s.head? = some '/') else failed
      let s1 := if !failed then s.tail else s
      matchChunkF fuel failed1 cs s1
    else if c = '\\' then
      match cs with
      | [] => .err
      | d :: ds =>
        let failed1 := if !failed then failed || decide (s.head? ≠ some d) else failed
        let s1 := if !failed then s.tail else s
        matchChunkF fuel failed1 ds s1
    else
      let failed1 := if !failed then failed || decide (s.head? ≠ some c) else failed
      let s1 := if !failed then s.tail else s
      matchChunkF fuel failed1 cs s1

def matchChunk (chunk s : List Char) : ChunkRes :=
  matchChunkF (chunk.length + 1) false chunk s

/-- scanChunk: strip leading stars. -/
def stripStars : List Char → Bool × List Char
  | [] => (false, [])
  | c :: cs => if c = '*' then (true, (stripStars cs).2) else (false, c :: cs)

/-- scanChunk: scan up to the next unescaped star outside a range. -/
def scanTo (inrange : Bool) : List Char → List Char × List Char
  | [] => ([], [])
  | '\\' :: [] => (['\\'], [])
  | '\\' :: d :: ds =>
    let p := scanTo inrange ds
    ('\\' :: d :: p.1, p.2)
  | '[' :: cs => let p := scanTo true cs; ('[' :: p.1, p.2)
  | ']' :: cs => let p := scanTo false cs; (']' :: p.1, p.2)
  | '*' :: cs =>
    if inrange then let p := scanTo inrange cs; ('*' :: p.1, p.2)
    else ([], '*' :: cs)
  | c :: cs => let p := scanTo inrange cs; (c :: p.1, p.2)

/-- scanChunk from filepath.Match. -/
def scanChunk (pattern : List Char) : Bool × List Char × List Char :=
  let sp := stripStars pattern
  let cr := scanTo false sp.2
  (sp.1, cr.1, cr.2)

/-- Result of the star-backtracking loop of filepath.Match. -/
inductive StarRes where
  | err
  | nomatch
  | cont (t : List Char)
deriving DecidableEq, Repr

/-- The inner star loop of filepath.Match: look for a chunk match skipping
one more name character each time, never skipping a separator. -/
def tryStar (chunk : List Char) (patEmpty : Bool) : List Char → StarRes
  | [] => .nomatch
  | c :: restName =>
    if c = '/' then .nomatch
    else
      match matchChunk chunk restName with
      | .err => .err
      | .ok t =>
        if patEmpty ∧ t ≠ [] then tryStar chunk patEmpty restName else .cont t
      | .fail => tryStar chunk patEmpty restName

/-- The final well-formedness scan of filepath.Match before returning a
non-error false.  Each iteration consumes part of the pattern, so
fuel = pattern.length + 1 suffices. -/
def checkRemainder : Nat → List Char → Option Bool
  | 0, _ => none
  | _ + 1, [] => some false
  | fuel + 1, pattern =>
    let scr := scanChunk pattern
    match matchChunk scr.2.1 [] with
    | .err => none
    | _ => checkRemainder fuel scr.2.2

/-- The outer loop of filepath.Match.  Every iteration consumes at least one
pattern character, so fuel = pattern.length + 1 suffices; none models a bad
pattern error. -/
def goMatchAuxF : Nat → List Char → List Char → Option Bool
  | 0, _, _ => none
  | _ + 1, [], name => some name.isEmpty
  | fuel + 1, pattern, name =>
    let scr := scanChunk pattern
    let star := scr.1
    let chunk := scr.2.1
    let rest := scr.2.2
    if star ∧ chunk = [] then some (!(name.contains '/'))
    else
      match matchChunk chunk name with
      | .ok t =>
        if t = [] ∨ rest ≠ [] then goMatchAuxF fuel rest t
        else if star then
          match tryStar chunk (rest = []) name with
          | .err => none
          | .cont t2 => goMatchAuxF fuel rest t2
          | .nomatch => checkRemainder (rest.length + 1) rest
        else checkRemainder (rest.length + 1) rest
      | .err => none
      | .fail =>
        if star then
          match tryStar chunk (rest = []) name with
          | .err => none
          | .cont t2 => goMatchAuxF fuel rest t2
          | .nomatch => checkRemainder (rest.length + 1) rest
        else checkRemainder (rest.length + 1) rest

/-- filepath.Match: some matched on success, none on a malformed pattern. -/
def goMatch (pattern name : String) : Option Bool :=
  goMatchAuxF (pattern.toList.length + 1) pattern.toList name.toList

/-- The common Go idiom for consuming a Match result where an error counts
as no match. -/
def goMatchBool (pattern name : String) : Bool :=
  goMatch pattern name == some true

/-! ## Go standard library: strconv.Quote (printable runes) -/

def hexDigit (n : Nat) : Char :=
  if n < 10 then Char.ofNat (48 + n) else Char.ofNat (87 + n)

/-- strconv.Quote escaping of one character.  Printable runes at or above
0x80 pass through unescaped; the repository only quotes paths and plain
values, which are printable. -/
def quoteCharGo (c : Char) : List Char :=
  if c = '"' then ['\\', '"']
  else if c = '\\' then ['\\', '\\']
  else if 0x20 ≤ c.toNat ∧ c.toNat < 0x7f then [c]
  else if c.toNat = 7 then ['\\', 'a']
  else if c.toNat = 8 then ['\\', 'b']
  else if c.toNat = 12 then ['\\', 'f']
  else if c.toNat = 10 then ['\\', 'n']
  else if c.toNat = 13 then ['\\', 'r']
  else if c.toNat = 9 then ['\\', 't']
  else if c.toNat = 11 then ['\\', 'v']
  else if c.toNat < 0x80 then ['\\', 'x', hexDigit (c.toNat / 16), hexDigit (c.toNat % 16)]
  else [c]

def goQuote (s : String) : String :=
  String.mk ('"' :: (s.toList.map quoteCharGo).flatten ++ ['"'])

/-! ## Error model

Go error values produced by the engine: context.Canceled, opaque base
errors, and the wrapping produced by the collection sites, which all use
the same format string (path %q: %w). -/

inductive GoError where
  | canceled
  | base (msg : String)
  | wrapped (path : String) (e : GoError)
deriving DecidableEq, Repr

/-- The Error() string of a modelled error. -/
def errString : GoError → String
  | .canceled => "context canceled"
  | .base m => m
  | .wrapped p e => "path " ++ goQuote p ++ ": " ++ errString e

/-- errors.Is over the unwrap chain of the %w wrapper.  Structural equality
over-approximates Go pointer identity, but everywhere the engine consults
it the test is disjoined with Error()-string equality, which structural
equality implies, so the disjunction is unchanged. -/
def goErrorIs : GoError → GoError → Bool
  | .canceled, target => GoError.canceled == target
  | .base m, target => GoError.base m == target
  | .wrapped p inner, target => (GoError.wrapped p inner == target) || goErrorIs inner target

/-- The value returned by a walk: nil, a single error, or the aggregate
produced by fmt.Errorf("multiple errors: %v", walkErrors). -/
inductive WalkReturn where
  | noError
  | err (e : GoError)
  | aggregate (es : List GoError)
deriving DecidableEq, Repr

/-- The error-collapsing logic shared by WalkLimit and
walkLimitWithSymlinkHandling: a single collected cancellation error is
returned as context.Canceled; otherwise if every collected error is the
first one (by errors.Is or by Error() string) the first is returned;
otherwise the aggregate. -/
def collectWalkErrors : List GoError → WalkReturn
  | [] => .noError
  | first :: rest =>
    if rest.length = 0 ∧ (goErrorIs first .canceled || (errString first == "context canceled")) then
      .err .canceled
    else if rest.all (fun e => goErrorIs e first || (errString e == errString first)) then
      .err first
    else
      .aggregate (first :: rest)

/-! ## Time, file modes, file metadata -/

/-- A Go time.Time as used by the engine: an instant for ordering and
subtraction, plus its RFC3339 rendering, carried as data so the formatter
does not re-derive the calendar. -/
structure GoTime where
  unix : Int
  rfc3339 : String
deriving DecidableEq, Repr

def zeroTime : GoTime := ⟨0, ""⟩

/-- time.Before. -/
def timeBeforeB (a b : GoTime) : Bool := decide (a.unix < b.unix)

/-- time.After. -/
def timeAfterB (a b : GoTime) : Bool := decide (a.unix > b.unix)

/-! os.FileMode bit layout. -/

def ModeDir : Nat := 2 ^ 31
def ModeSymlink : Nat := 2 ^ 27
def ModeDevice : Nat := 2 ^ 26
def ModeNamedPipe : Nat := 2 ^ 25
def ModeSocket : Nat := 2 ^ 24
def ModeSetuid : Nat := 2 ^ 23
def ModeSetgid : Nat := 2 ^ 22
def ModeCharDevice : Nat := 2 ^ 21
def ModeSticky : Nat := 2 ^ 20
def ModeIrregular : Nat := 2 ^ 19

def ModeType : Nat :=
  ModeDir ||| ModeSymlink ||| ModeNamedPipe ||| ModeSocket ||| ModeDevice |||
    ModeCharDevice ||| ModeIrregular

/-- FileMode.Perm: the lower nine permission bits. -/
def goPerm (m : Nat) : Nat := m &&& 0o777

def modeIsDir (m : Nat) : Bool := decide (m &&& ModeDir ≠ 0)

def modeIsRegular (m : Nat) : Bool := decide (m &&& ModeType = 0)

/-- Go a &^ b on file modes. -/
def goAndNot (a b : Nat) : Nat := a - (a &&& b)

/-- fillFileStatFromSys: translation of a unix st_mode into an os.FileMode.
The setuid, setgid and sticky bits move from bits 11, 10, 9 of st_mode to
the high FileMode flag bits. -/
def goModeOfUnix (m : Nat) : Nat :=
  let base := m &&& 0o777
  let typ : Nat :=
    if m &&& 0o170000 = 0o60000 then ModeDevice
    else if m &&& 0o170000 = 0o20000 then ModeDevice ||| ModeCharDevice
    else if m &&& 0o170000 = 0o40000 then ModeDir
    else if m &&& 0o170000 = 0o10000 then ModeNamedPipe
    else if m &&& 0o170000 = 0o120000 then ModeSymlink
    else if m &&& 0o170000 = 0o140000 then ModeSocket
    else 0
  base ||| typ |||
    (if m &&& 0o4000 ≠ 0 then ModeSetuid else 0) |||
    (if m &&& 0o2000 ≠ 0 then ModeSetgid else 0) |||
    (if m &&& 0o1000 ≠ 0 then ModeSticky else 0)

/-- The os.FileInfo fields the engine reads. -/
structure FileInfo where
  name : String
  size : Int
  mode : Nat
  modTime : GoTime
deriving DecidableEq, Repr

def FileInfo.isDir (i : FileInfo) : Bool := modeIsDir i.mode

/-- The syscall.Stat_t fields the predicate evaluator reads. -/
structure StatT where
  uid : Int
  gid : Int
  atime : GoTime
  ctime : GoTime
deriving DecidableEq, Repr

/-- The ambient filesystem and platform database, passed explicitly where
the Go code performs syscalls. -/
structure FsEnv where
  lstatFn : String → Option FileInfo
  statFn : String → Option FileInfo
  evalSymlinksFn : String → Option String
  sysStatFn : String → Option StatT
  usersFn : Int → Option String
  groupsFn : Int → Option String
  isDirEmptyFn : String → Option Bool
  hasFilesFn : String → Bool

/-- getAccessTime: re-stat the path; the zero time on failure. -/
def getAccessTime (env : FsEnv) (path : String) : GoTime :=
  match env.sysStatFn path with
  | some st => st.atime
  | none => zeroTime

/-- getCreationTime: re-stat the path; the zero time on failure. -/
def getCreationTime (env : FsEnv) (path : String) : GoTime :=
  match env.sysStatFn path with
  | some st => st.ctime
  | none => zeroTime

/-! ## Configuration -/

inductive ErrorHandling where
  | contOnError
  | stopOnError
  | skipOnError
deriving DecidableEq, Repr

inductive SymlinkHandling where
  | follow
  | ignore
  | report
deriving DecidableEq, Repr

/-- FilterOptions.  Zero-time fields are modelled as none, matching the
IsZero sentinel tests in the source. -/
structure FilterOptions where
  MinSize : Int := 0
  MaxSize : Int := 0
  Pattern : String := ""
  ExcludeDir : List String := []
  IncludeTypes : List String := []
  FileTypes : List String := []
  ExcludePattern : List String := []
  ModifiedAfter : Option GoTime := none
  ModifiedBefore : Option GoTime := none
  AccessedAfter : Option GoTime := none
  AccessedBefore : Option GoTime := none
  CreatedAfter : Option GoTime := none
  CreatedBefore : Option GoTime := none
  MinPermissions : Nat := 0
  MaxPermissions : Nat := 0
  ExactPermissions : Nat := 0
  UseExactPermissions : Bool := false
  OwnerUID : Int := 0
  OwnerGID : Int := 0
  OwnerName : String := ""
  GroupName : String := ""
  MinDepth : Int := 0
  MaxDepth : Int := 0
  IncludeEmptyFiles : Bool := false
  IncludeEmptyDirs : Bool := false
deriving DecidableEq, Repr

/-! ## filePassesFilter, clause by clause.  Each early return false in the
source becomes one rejection conjunct; the conjunction is short-circuit,
like the early returns. -/

def sizeOk (filter : FilterOptions) (info : FileInfo) : Bool :=
  !(decide (filter.MinSize > 0) && decide (info.size < filter.MinSize)) &&
  !(decide (filter.MaxSize > 0) && decide (info.size > filter.MaxSize))

def modTimeOk (filter : FilterOptions) (info : FileInfo) : Bool :=
  (match filter.ModifiedAfter with
   | some t => !timeBeforeB info.modTime t
   | none => true) &&
  (match filter.ModifiedBefore with
   | some t => !timeAfterB info.modTime t
   | none => true)

/-- The block guarded by a successful syscall.Stat: access and creation
time checks and numeric owner checks.  On a stat error the whole block is
skipped and the entry passes it. -/
def statBlockOk (env : FsEnv) (path : String) (filter : FilterOptions) : Bool :=
  match env.sysStatFn path with
  | none => true
  | some st =>
    (if filter.AccessedAfter ≠ none ∨ filter.AccessedBefore ≠ none then
      let atime := getAccessTime env path
      (match filter.AccessedAfter with
       | some t => !timeBeforeB atime t
       | none => true) &&
      (match filter.AccessedBefore with
       | some t => !timeAfterB atime t
       | none => true)
     else true) &&
    (if filter.CreatedAfter ≠ none ∨ filter.CreatedBefore ≠ none then
      let ctime := getCreationTime env path
      (match filter.CreatedAfter with
       | some t => !timeBeforeB ctime t
       | none => true) &&
      (match filter.CreatedBefore with
       | some t => !timeAfterB ctime t
       | none => true)
     else true) &&
    !(decide (filter.OwnerUID > 0) && decide (st.uid ≠ filter.OwnerUID)) &&
    !(decide (filter.OwnerGID > 0) && decide (st.gid ≠ filter.OwnerGID))

def ownerNameOk (env : FsEnv) (path : String) (filter : FilterOptions) : Bool :=
  if filter.OwnerName ≠ "" ∨ filter.GroupName ≠ "" then
    match env.sysStatFn path with
    | none => true
    | some st =>
      (if filter.OwnerName ≠ "" then
        match env.usersFn st.uid with
        | none => false
        | some u => u == filter.OwnerName
       else true) &&
      (if filter.GroupName ≠ "" then
        match env.groupsFn st.gid with
        | none => false
        | some g => g == filter.GroupName
       else true)
  else true

/-- The glob clause: matched against the base name of the entry only; a
pattern error rejects. -/
def patternOk (filter : FilterOptions) (info : FileInfo) : Bool :=
  if filter.Pattern ≠ "" then goMatchBool filter.Pattern info.name else true

def excludePatternOk (filter : FilterOptions) (info : FileInfo) : Bool :=
  filter.ExcludePattern.all (fun pat => !goMatchBool pat info.name)

def includeTypesOk (filter : FilterOptions) (path : String) : Bool :=
  if filter.IncludeTypes.length > 0 then filter.IncludeTypes.contains (goExt path)
  else true

def fileTypeMatches (mode : Nat) (ft : String) : Bool :=
  if ft == "file" then modeIsRegular mode
  else if ft == "dir" then modeIsDir mode
  else if ft == "symlink" then decide (mode &&& ModeSymlink ≠ 0)
  else if ft == "pipe" then decide (mode &&& ModeNamedPipe ≠ 0)
  else if ft == "socket" then decide (mode &&& ModeSocket ≠ 0)
  else if ft == "device" then decide (mode &&& ModeDevice ≠ 0)
  else if ft == "char" then decide (mode &&& ModeCharDevice ≠ 0)
  else false

def fileTypesOk (filter : FilterOptions) (info : FileInfo) : Bool :=
  if filter.FileTypes.length > 0 then filter.FileTypes.any (fileTypeMatches info.mode)
  else true

def emptyOk (env : FsEnv) (path : String) (filter : FilterOptions) (info : FileInfo) : Bool :=
  !(filter.IncludeEmptyFiles && !info.isDir && decide (info.size > 0)) &&
  (if filter.IncludeEmptyDirs && info.isDir then
    match env.isDirEmptyFn path with
    | some true => true
    | _ => false
   else true)

/-- The permission clause: built on FileMode.Perm, i.e. the lower nine
bits only. -/
def permOk (filter : FilterOptions) (info : FileInfo) : Bool :=
  let mode := goPerm info.mode
  if filter.UseExactPermissions ∧ filter.ExactPermissions ≠ 0 then
    mode == filter.ExactPermissions
  else
    (if filter.MinPermissions ≠ 0 then (mode &&& filter.MinPermissions) == filter.MinPermissions
     else true) &&
    (if filter.MaxPermissions ≠ 0 then goAndNot mode filter.MaxPermissions == 0
     else true)

/-- filePassesFilter from the source, as the conjunction of its rejection
blocks in source order. -/
def filePassesFilter (path : String) (info : FileInfo) (filter : FilterOptions)
    (env : FsEnv) (_sym : SymlinkHandling) : Bool :=
  sizeOk filter info && modTimeOk filter info && statBlockOk env path filter &&
  ownerNameOk env path filter && patternOk filter info && excludePatternOk filter info &&
  includeTypesOk filter path && fileTypesOk filter info && emptyOk env path filter info &&
  permOk filter info

/-! ## shouldSkipDir and the excluded-directory cache -/

/-- The parent-walking loop of shouldSkipDir.  Returns whether an exclude
pattern matched a base name strictly inside the walk, and the directory at
which the loop stopped (for the final root check).  Each iteration shortens
the directory path except for the final step onto a dot or slash, so
fuel = dir.length + 2 suffices; Go would loop on an empty dir only by
panicking on the index below, so the empty string also exits. -/
def skipLoop (excludes : List String) (root : String) : Nat → String → Bool × String
  | 0, dir => (false, dir)
  | fuel + 1, dir =>
    if dir = root ∨ dir = "." ∨ dir = "/" ∨ dir = "" then (false, dir)
    else if excludes.any (fun ex => goMatchBool ex (goBase dir)) then (true, dir)
    else
      let next :=
        if dir.toList.getLast? = some '/' then goDir (String.mk dir.toList.dropLast)
        else goDir dir
      skipLoop excludes root fuel next

/-- shouldSkipDir with the process-wide excludedDirs cache made explicit:
only positive results are stored, and a hit on the path short-circuits the
walk; the root-level match is deliberately not cached. -/
def shouldSkipDir (cache : List String) (path root : String) (excludes : List String) :
    Bool × List String :=
  if cache.contains path then (true, cache)
  else
    let lp := skipLoop excludes root (path.toList.length + 2) path
    if lp.1 then (true, path :: cache)
    else if excludes.any (fun ex => goMatchBool ex (goBase lp.2)) then (true, cache)
    else (false, cache)

/-! ## The traversal engine

A filesystem subtree is modelled as a tree of named entries carrying the
FileInfo an Lstat would return.  The engine mirrors the godirwalk callback
of WalkLimit and walkLimitWithSymlinkHandling: a directory entry is
processed synchronously, SkipDir prunes its children, a non-SkipDir
directory error is collected (wrapped as path %q: %w) and descent
continues; a non-directory entry is handed to a worker whose non-SkipDir
error is collected the same way.  Worker scheduling is modelled
sequentially; the engine makes no ordering guarantee, and the claims below
are about delivery and error sets.  The cancellation and Lstat-failure
paths of the callback are not exercised by the modelled runs. -/

/-- The outcome of one user-callback invocation: nil, filepath.SkipDir, or
any other error. -/
inductive WalkResult where
  | ok
  | skipDir
  | fail (e : GoError)
deriving DecidableEq, Repr

/-- One filesystem node: its base name, Lstat result, and children (read
only when the node is a directory). -/
inductive FSTree where
  | node (name : String) (info : FileInfo) (children : List FSTree)

def FSTree.name : FSTree → String
  | .node n _ _ => n

def FSTree.info : FSTree → FileInfo
  | .node _ i _ => i

/-- What one per-entry callback invocation produces: the callback state, the
entries it delivered to the user callback, and its Go return value. -/
structure CbOut (σ : Type) where
  state : σ
  delivered : List (String × Bool)
  res : WalkResult

def childPath (p name : String) : String := p ++ "/" ++ name

mutual

/-- Fueled walk of one node.  Fuel bounds the total number of engine steps;
any fuel at least the node count plus the depth is sufficient, and every
theorem below either holds for all fuel or fixes a concrete sufficient
fuel. -/
def walkNodeF {σ : Type} (cb : σ → String → FileInfo → CbOut σ) :
    Nat → σ → String → FSTree → σ × List (String × Bool) × List GoError
  | 0, s, _, _ => (s, [], [])
  | fuel + 1, s, p, .node _ info children =>
    let o := cb s p info
    if info.isDir then
      match o.res with
      | .skipDir => (o.state, o.delivered, [])
      | .ok =>
        let r := walkListF cb fuel o.state p children
        (r.1, o.delivered ++ r.2.1, r.2.2)
      | .fail e =>
        let r := walkListF cb fuel o.state p children
        (r.1, o.delivered ++ r.2.1, GoError.wrapped p e :: r.2.2)
    else
      match o.res with
      | .fail e => (o.state, o.delivered, [GoError.wrapped p e])
      | _ => (o.state, o.delivered, [])

/-- Fueled walk of a list of children of the directory at path p. -/
def walkListF {σ : Type} (cb : σ → String → FileInfo → CbOut σ) :
    Nat → σ → String → List FSTree → σ × List (String × Bool) × List GoError
  | 0, s, _, _ => (s, [], [])
  | _ + 1, s, _, [] => (s, [], [])
  | fuel + 1, s, p, t :: ts =>
    let r1 := walkNodeF cb fuel s (childPath p t.name) t
    let r2 := walkListF cb fuel r1.1 p ts
    (r2.1, r1.2.1 ++ r2.2.1, r1.2.2 ++ r2.2.2)

end

/-! ## WalkLimitWithProgress: the statistics-wrapping callback -/

/-- The progress counters of Stats that the wrapped callback mutates. -/
structure StatsM where
  files : Int := 0
  dirs : Int := 0
  emptyDirs : Int := 0
  bytes : Int := 0
  errors : Int := 0
deriving DecidableEq, Repr

/-- The wrappedWalkFn of WalkLimitWithProgress for one entry: on an error
argument the error counter advances and the error is returned; otherwise
the dir or file counters advance, the user callback runs, and any non-nil
user return, filepath.SkipDir included, advances the error counter and is
returned. -/
def progressStep (env : FsEnv) (userRes : WalkResult) (stats : StatsM)
    (path : String) (info : FileInfo) (err : Option GoError) : StatsM × WalkResult :=
  match err with
  | some e => ({ stats with errors := stats.errors + 1 }, .fail e)
  | none =>
    let stats1 :=
      if info.isDir then
        let s := { stats with dirs := stats.dirs + 1 }
        if !env.hasFilesFn path then { s with emptyDirs := s.emptyDirs + 1 } else s
      else
        { stats with files := stats.files + 1, bytes := stats.bytes + info.size }
    let stats2 :=
      if userRes ≠ WalkResult.ok then { stats1 with errors := stats1.errors + 1 }
      else stats1
    (stats2, userRes)

/-! ## WalkLimitWithOptions: the wrappedWalkFn -/

/-- The observable effect of one wrappedWalkFn invocation in
WalkLimitWithOptions: whether the user callback was invoked and with what,
the Go return value, and the updated excluded-directory cache and
progress counters. -/
structure OptionsStepOut where
  userCall : Option (String × FileInfo)
  res : WalkResult
  cache : List String
  stats : StatsM
deriving DecidableEq, Repr

/-- The wrappedWalkFn of WalkLimitWithOptions for one entry.  On an error
argument: the error counter advances when a progress callback is set, then
the continue and skip policies both return nil without invoking the user
callback, and any other policy returns the error.  Otherwise depth
filtering, directory exclusion and the file filter run before the user
callback. -/
def optionsStep (eh : ErrorHandling) (filter : FilterOptions) (sym : SymlinkHandling)
    (hasProgress : Bool) (env : FsEnv) (root : String)
    (userFn : String → FileInfo → WalkResult) (cache : List String) (stats : StatsM)
    (path : String) (info : Option FileInfo) (err : Option GoError) : OptionsStepOut :=
  match err with
  | some e =>
    let stats1 := if hasProgress then { stats with errors := stats.errors + 1 } else stats
    match eh with
    | .contOnError => ⟨none, .ok, cache, stats1⟩
    | .skipOnError => ⟨none, .ok, cache, stats1⟩
    | .stopOnError => ⟨none, .fail e, cache, stats1⟩
  | none =>
    match info with
    | none => ⟨none, .ok, cache, stats⟩
    | some info =>
      let rootDepth : Int := countChar '/' (goClean root).toList
      let pathDepth : Int := (countChar '/' (goClean path).toList : Int) - rootDepth
      if filter.MinDepth > 0 ∧ pathDepth < filter.MinDepth then
        ⟨none, .ok, cache, stats⟩
      else if filter.MaxDepth > 0 ∧ pathDepth > filter.MaxDepth then
        if info.isDir then ⟨none, .skipDir, cache, stats⟩
        else ⟨none, .ok, cache, stats⟩
      else if info.isDir then
        let sd := shouldSkipDir cache path root filter.ExcludeDir
        if sd.1 then ⟨none, .skipDir, sd.2, stats⟩
        else
          let stats1 :=
            if hasProgress then
              let s := { stats with dirs := stats.dirs + 1 }
              if !env.hasFilesFn path then { s with emptyDirs := s.emptyDirs + 1 } else s
            else stats
          ⟨some (path, info), userFn path info, sd.2, stats1⟩
      else
        let parent := goDir path
        let sd := shouldSkipDir cache parent root filter.ExcludeDir
        if sd.1 then ⟨none, .ok, sd.2, stats⟩
        else if !filePassesFilter path info filter env sym then ⟨none, .ok, sd.2, stats⟩
        else
          let stats1 :=
            if hasProgress then
              { stats with files := stats.files + 1, bytes := stats.bytes + info.size }
            else stats
          ⟨some (path, info), userFn path info, sd.2, stats1⟩

/-! ## Symlink resolution and WalkLimitWithFilter -/

/-- isCyclicSymlink over the visited-set made explicit: cyclic when the
initial path was stored before, or when the resolved path equals any stored
key; otherwise both keys are stored. -/
def isCyclicSymlink (visited : List String) (initialPath realPath : String) :
    Bool × List String :=
  if visited.contains initialPath then (true, visited)
  else if visited.contains realPath then (true, visited)
  else (false, realPath :: initialPath :: visited)

/-- Outcome of resolveSymlink as consumed by filteredWalkFn: an error, a
dropped entry (ignored or cyclic symlink), or a kept entry with the
symlink flag. -/
inductive ResolveOut where
  | fails (e : GoError)
  | drop
  | keep (path : String) (info : FileInfo) (isLink : Bool)
deriving DecidableEq, Repr

/-- resolveSymlink: Lstat, pass non-symlinks through, drop ignored
symlinks, canonicalise and Stat, then consult and update the visited
set. -/
def resolveSymlink (env : FsEnv) (visited : List String) (path : String)
    (sym : SymlinkHandling) : ResolveOut × List String :=
  match env.lstatFn path with
  | none => (.fails (.base ("lstat " ++ path)), visited)
  | some fi =>
    if fi.mode &&& ModeSymlink = 0 then (.keep path fi false, visited)
    else if sym = SymlinkHandling.ignore then (.drop, visited)
    else
      match env.evalSymlinksFn path with
      | none => (.fails (.base ("evalsymlinks " ++ path)), visited)
      | some realPath =>
        match env.statFn realPath with
        | none => (.fails (.base ("stat " ++ realPath)), visited)
        | some rfi =>
          let cy := isCyclicSymlink visited path realPath
          if cy.1 then (.drop, cy.2) else (.keep realPath rfi true, cy.2)

/-- The engine state of WalkLimitWithFilter: the symlink visited-set and
the excluded-directory cache. -/
structure EngineState where
  visited : List String
  cache : List String
deriving DecidableEq, Repr

/-- The filteredWalkFn of WalkLimitWithFilter for one entry: resolve
symlinks first, prune excluded directories, drop files in excluded parents
or failing the filter, and otherwise deliver to the user callback. -/
def filteredWalkFn (env : FsEnv) (filter : FilterOptions) (root : String)
    (userFn : String → FileInfo → WalkResult) (st : EngineState)
    (path0 : String) (info0 : FileInfo) (err : Option GoError) : CbOut EngineState :=
  match err with
  | some e => ⟨st, [], .fail e⟩
  | none =>
    let rs := resolveSymlink env st.visited path0 SymlinkHandling.follow
    let st1 : EngineState := ⟨rs.2, st.cache⟩
    match rs.1 with
    | .fails e => ⟨st1, [], .fail e⟩
    | .drop => ⟨st1, [], .ok⟩
    | .keep p1 i1 isLink =>
      let path := if isLink then p1 else path0
      let info := if isLink then i1 else info0
      if info.isDir then
        let sd := shouldSkipDir st1.cache path root filter.ExcludeDir
        if sd.1 then ⟨⟨st1.visited, sd.2⟩, [], .skipDir⟩
        else ⟨⟨st1.visited, sd.2⟩, [(path, true)], userFn path info⟩
      else
        let parent := goDir path
        let sd := shouldSkipDir st1.cache parent root filter.ExcludeDir
        if sd.1 then ⟨⟨st1.visited, sd.2⟩, [], .ok⟩
        else if !filePassesFilter path info filter env SymlinkHandling.follow then
          ⟨⟨st1.visited, sd.2⟩, [], .ok⟩
        else ⟨⟨st1.visited, sd.2⟩, [(path, false)], userFn path info⟩

/-- A top-level WalkLimitWithFilter call: clean the root, reset the
symlink visited-set (the excluded-directory cache is kept as the source
keeps it), then run the engine with filteredWalkFn. -/
def walkLimitWithFilterModel (fuel : Nat) (env : FsEnv) (filter : FilterOptions)
    (userFn : String → FileInfo → WalkResult) (st : EngineState) (root : String)
    (tree : FSTree) : EngineState × List (String × Bool) × List GoError :=
  let rootC := goClean root
  walkNodeF (fun s p i => filteredWalkFn env filter rootC userFn s p i none) fuel
    ⟨[], st.cache⟩ rootC tree

/-! ## The find layer -/

/-- FindMessage as built by the Find walk callback. -/
structure FindMessage where
  Path : String := ""
  Name : String := ""
  Dir : String := ""
  Size : Int := 0
  Time : GoTime := zeroTime
  IsDir : Bool := false
  Metadata : List (String × String) := []
  Tags : List (String × String) := []
  VersionID : String := ""
deriving DecidableEq, Repr

/-- FindOptions.  A compiled regular expression is modelled as its
matching predicate; the NFC normalisation applied before metadata and tag
matching is absorbed into the stored predicates.  Durations are
integers in the time unit of GoTime. -/
structure FindOptions where
  NamePattern : String := ""
  PathPattern : String := ""
  IgnorePattern : String := ""
  RegexPattern : Option (String → Bool) := none
  OlderThan : Int := 0
  NewerThan : Int := 0
  LargerSize : Int := 0
  SmallerSize : Int := 0
  MatchMeta : List (String × Option (String → Bool)) := []
  MatchTags : List (String × Option (String → Bool)) := []
  ExecCmd : String := ""
  PrintFormat : String := ""
  MaxDepth : Nat := 0
  FollowSymlinks : Bool := false
  IncludeHidden : Bool := false
  WithVersions : Bool := false
  Watch : Bool := false
  WatchEvents : List String := []

structure FindResult where
  Message : FindMessage := {}
  Error : Option GoError := none
deriving DecidableEq, Repr

/-- nameMatch: glob the pattern against the base name; a pattern error is
no match; on a clean non-match, fall back to comparing the pattern for
literal equality against every separator-split component of the path. -/
def nameMatch (pattern path : String) : Bool :=
  match goMatch pattern (goBase path) with
  | none => false
  | some matched =>
    matched || (splitChar '/' path.toList).any (fun comp => comp == pattern.toList)

/-- The middle-parts loop of pathMatch, then the suffix check on the last
part. -/
def pathLoopGo (s : List Char) : List (List Char) → Bool
  | [] => true
  | [last] => last.isSuffixOf s
  | mid :: rest =>
    match strIndexOf mid s with
    | none => false
    | some idx => pathLoopGo (s.drop (idx + mid.length)) rest

/-- pathMatch: simple star-wildcard matching where a star may cross
separators. -/
def pathMatch (pattern path : String) : Bool :=
  match splitChar '*' pattern.toList with
  | [] => pattern == path
  | [_] => pattern == path
  | p0 :: rest =>
    if p0.isPrefixOf path.toList then pathLoopGo (path.toList.drop p0.length) rest
    else false

def lookupAssoc (l : List (String × String)) (k : String) : Option String :=
  match l.find? (fun kv => kv.1 == k) with
  | some kv => some kv.2
  | none => none

/-- matchRegexMap: a nil pattern requires the key to be absent or empty; a
present pattern requires the key to exist and its value to match. -/
def matchRegexMap (patterns : List (String × Option (String → Bool)))
    (values : List (String × String)) : Bool :=
  patterns.all fun kp =>
    match kp.2 with
    | none =>
      match lookupAssoc values kp.1 with
      | some v => v == ""
      | none => true
    | some p =>
      match lookupAssoc values kp.1 with
      | some v => p v
      | none => false

/-- matchFind at a given clock instant: the source evaluates the old and
new clauses as time.Since(msg.Time), i.e. against the clock value at the
moment the entry is matched, passed here as now. -/
def matchFindAt (now : Int) (opts : FindOptions) (msg : FindMessage) : Bool :=
  (opts.NamePattern == "" || nameMatch opts.NamePattern msg.Path) &&
  (opts.PathPattern == "" || pathMatch opts.PathPattern msg.Path) &&
  (opts.IgnorePattern == "" || !pathMatch opts.IgnorePattern msg.Path) &&
  (match opts.RegexPattern with
   | none => true
   | some re => re msg.Path) &&
  (!decide (opts.OlderThan > 0) || decide (now - msg.Time.unix > opts.OlderThan)) &&
  (!decide (opts.NewerThan > 0) || decide (now - msg.Time.unix < opts.NewerThan)) &&
  (!decide (opts.LargerSize > 0) || decide (msg.Size > opts.LargerSize)) &&
  (!decide (opts.SmallerSize > 0) || decide (msg.Size < opts.SmallerSize)) &&
  (decide (opts.MatchMeta.length = 0) || matchRegexMap opts.MatchMeta msg.Metadata) &&
  (decide (opts.MatchTags.length = 0) || matchRegexMap opts.MatchTags msg.Tags)

/-- isHidden: the base name begins with a dot. -/
def isHidden (path : String) : Bool :=
  match (goBase path).toList with
  | '.' :: _ => true
  | _ => false

/-- Go uint conversion of a possibly negative int (two's complement
wraparound at 64 bits). -/
def goUintOfInt (i : Int) : Nat := (i % (2 : Int) ^ 64).toNat

/-- The walk callback of Find for one entry, evaluated with the clock value
now that time.Since would read when matching this entry.  The first
component is the FindResult passed to the handler, when any; the second is
the callback return value, which is the handler result on delivery. -/
def findCallback (now : Int) (opts : FindOptions) (root : String)
    (handler : FindResult → Option GoError)
    (path : String) (info : FileInfo) (err : Option GoError) :
    Option FindResult × WalkResult :=
  match err with
  | some e =>
    let r : FindResult := { Error := some e }
    (some r, match handler r with | none => .ok | some e2 => .fail e2)
  | none =>
    if !opts.IncludeHidden && isHidden path then
      (none, if info.isDir then .skipDir else .ok)
    else
      let msg : FindMessage :=
        { Path := path, Name := goBase path, Dir := goDir path, Size := info.size,
          Time := info.modTime, IsDir := info.isDir, Metadata := [], Tags := [],
          VersionID := "" }
      if opts.MaxDepth > 0 && info.isDir &&
          decide (goUintOfInt ((countChar '/' path.toList : Int) -
            (countChar '/' root.toList : Int)) > opts.MaxDepth) then
        (none, .skipDir)
      else if info.isDir then (none, .ok)
      else if matchFindAt now opts msg then
        let r : FindResult := { Message := msg }
        (some r, match handler r with | none => .ok | some e2 => .fail e2)
      else (none, .ok)

/-! ## The template formatter -/

def phPath : String := "\x7b\x7d"
def phBase : String := "\x7bbase\x7d"
def phDir : String := "\x7bdir\x7d"
def phSize : String := "\x7bsize\x7d"
def phTime : String := "\x7btime\x7d"
def phQPath : String := "\x7b\"\"\x7d"
def phQBase : String := "\x7b\"base\"\x7d"
def phQDir : String := "\x7b\"dir\"\x7d"
def phQSize : String := "\x7b\"size\"\x7d"
def phQTime : String := "\x7b\"time\"\x7d"
def phVersion : String := "\x7bversion\x7d"
def phQVersion : String := "\x7b\"version\"\x7d"

/-- The placeholders formatCommand actually replaces, in replacement
order. -/
def implPlaceholders : List String :=
  [phPath, phBase, phDir, phSize, phTime, phQPath, phQBase, phQDir, phQSize, phQTime,
   phVersion, phQVersion]

def replaceAllStr (s old new : String) : String :=
  String.mk (replaceAll s.toList old.toList new.toList)

/-- formatCommand: a chain of sequential textual replacements, one per
recognised placeholder, then the version placeholders when the message has
a version id.  fmt.Sprintf with %d is decimal Int rendering; Format with
time.RFC3339 is the rfc3339 field of the modelled time. -/
def formatCommand (template : String) (msg : FindMessage) : String :=
  let str := template
  let str := replaceAllStr str phPath msg.Path
  let str := replaceAllStr str phBase msg.Name
  let str := replaceAllStr str phDir msg.Dir
  let str := replaceAllStr str phSize (toString msg.Size)
  let str := replaceAllStr str phTime msg.Time.rfc3339
  let str := replaceAllStr str phQPath (goQuote msg.Path)
  let str := replaceAllStr str phQBase (goQuote msg.Name)
  let str := replaceAllStr str phQDir (goQuote msg.Dir)
  let str := replaceAllStr str phQSize (goQuote (toString msg.Size))
  let str := replaceAllStr str phQTime (goQuote msg.Time.rfc3339)
  if msg.VersionID ≠ "" then
    replaceAllStr (replaceAllStr str phVersion msg.VersionID) phQVersion
      (goQuote msg.VersionID)
  else str

/-- The recognised placeholder set as the specification lists it: the
implemented ones plus access time, creation time, mode, owner, group, type,
extension and event, each with its shell-quoted variant. -/
def specRecognizedPlaceholders : List String :=
  implPlaceholders ++
    ["\x7batime\x7d", "\x7bctime\x7d", "\x7bmode\x7d", "\x7bowner\x7d",
     "\x7bgroup\x7d", "\x7btype\x7d", "\x7bext\x7d", "\x7bevent\x7d",
     "\x7b\"atime\"\x7d", "\x7b\"ctime\"\x7d", "\x7b\"mode\"\x7d", "\x7b\"owner\"\x7d",
     "\x7b\"group\"\x7d", "\x7b\"type\"\x7d", "\x7b\"ext\"\x7d", "\x7b\"event\"\x7d"]

/-! ## Shared fixtures for concrete runs -/

/-- An environment in which every syscall fails; sufficient for entries
whose predicate clauses never reach the syscall blocks. -/
def emptyEnv : FsEnv where
  lstatFn := fun _ => none
  statFn := fun _ => none
  evalSymlinksFn := fun _ => none
  sysStatFn := fun _ => none
  usersFn := fun _ => none
  groupsFn := fun _ => none
  isDirEmptyFn := fun _ => none
  hasFilesFn := fun _ => false

def alwaysOkFn : String → FileInfo → WalkResult := fun _ _ => WalkResult.ok

def mkDirInfo (n : String) : FileInfo :=
  { name := n, size := 0, mode := goModeOfUnix 0o40755, modTime := zeroTime }

def mkFileInfo (n : String) (sz : Int) : FileInfo :=
  { name := n, size := sz, mode := goModeOfUnix 0o100644, modTime := zeroTime }

/-- The fixture tree /r, /r/sub, /r/sub/f.txt. -/
def fixTree : FSTree :=
  .node ("r") (mkDirInfo ("r"))
    [.node ("sub") (mkDirInfo ("sub"))
      [.node ("f.txt") (mkFileInfo ("f.txt") 5) []]]

/-- The matching Lstat environment for fixTree. -/
def fixEnv : FsEnv :=
  { emptyEnv with
    lstatFn := fun p =>
      if p == "/r" then some (mkDirInfo ("r"))
      else if p == "/r/sub" then some (mkDirInfo ("sub"))
      else if p == "/r/sub/f.txt" then some (mkFileInfo ("f.txt") 5)
      else none
    hasFilesFn := fun _ => true }

/-! ## Helper lemmas -/

theorem isPrefixOf_self (l : List Char) : l.isPrefixOf l = true := by
  induction l with
  | nil => rfl
  | cons c cs ih => simp [List.isPrefixOf, ih]

theorem replaceAllF_empty (old new : List Char) (fuel : Nat) :
    replaceAllF old new fuel [] = [] := by
  cases fuel <;> rfl

/-- A string with no occurrence of a nonempty old is unchanged by
ReplaceAll. -/
theorem replaceAllF_noop (old new : List Char) :
    ∀ (fuel : Nat) (s : List Char), containsSubstr old s = false →
      replaceAllF old new fuel s = s := by
  intro fuel
  induction fuel with
  | zero => intro s _; rfl
  | succ n ih =>
    intro s h
    cases s with
    | nil => rfl
    | cons c cs =>
      have h2 : (old.isPrefixOf (c :: cs) || containsSubstr old cs) = false := h
      rw [Bool.or_eq_false_iff] at h2
      show (if old ≠ [] ∧ old.isPrefixOf (c :: cs) then
          new ++ replaceAllF old new n (List.drop (old.length - 1) cs)
        else c :: replaceAllF old new n cs) = c :: cs
      rw [if_neg (by simp [h2.1]), ih cs h2.2]

theorem replaceAll_noop (s old new : List Char) (h : containsSubstr old s = false) :
    replaceAll s old new = s :=
  replaceAllF_noop old new s.length s h

theorem stringMk_toList (s : String) : String.mk s.toList = s := by
  cases s
  rfl

theorem replaceAllStr_noop (s old new : String)
    (h : containsSubstr old.toList s.toList = false) :
    replaceAllStr s old new = s := by
  show String.mk (replaceAll s.toList old.toList new.toList) = s
  rw [replaceAll_noop _ _ _ h, stringMk_toList]

/-- Replacing a string that is exactly the old pattern yields the new
value. -/
theorem replaceAll_self (old new : List Char) (h : old ≠ []) :
    replaceAll old old new = new := by
  cases old with
  | nil => exact absurd rfl h
  | cons c cs =>
    show replaceAllF (c :: cs) new (c :: cs).length (c :: cs) = new
    rw [List.length_cons]
    show (if (c :: cs) ≠ [] ∧ (c :: cs).isPrefixOf (c :: cs) then
        new ++ replaceAllF (c :: cs) new cs.length (List.drop ((c :: cs).length - 1) cs)
      else c :: replaceAllF (c :: cs) new cs.length cs) = new
    rw [if_pos ⟨by simp, isPrefixOf_self _⟩]
    simp [replaceAllF_empty]

theorem replaceAllStr_self (old new : String) (h : old.toList ≠ []) :
    replaceAllStr old old new = new := by
  show String.mk (replaceAll old.toList old.toList new.toList) = new
  rw [replaceAll_self _ _ h, stringMk_toList]

/-- Or-distribution of a mask over a term whose own mask is zero. -/
theorem lor_land_cancel (a b m : Nat) (hb : b &&& m = 0) : (a ||| b) &&& m = a &&& m := by
  apply Nat.eq_of_testBit_eq
  intro i
  have hbi : (b &&& m).testBit i = false := by rw [hb]; exact Nat.zero_testBit i
  rw [Nat.testBit_land] at hbi
  simp only [Nat.testBit_land, Nat.testBit_lor]
  cases hba : a.testBit i <;> cases hbb : b.testBit i <;> cases hbm : m.testBit i <;>
    simp_all

/-- The engine treats a file callback returning SkipDir exactly like one
returning success. -/
def skipToOk {σ : Type} (o : CbOut σ) : CbOut σ :=
  { o with res := if o.res = WalkResult.skipDir then WalkResult.ok else o.res }

/-- Replacing SkipDir results by success on non-directory entries does not
change any engine output. -/
theorem walk_skipToOk_eq {σ : Type} (cb cb' : σ → String → FileInfo → CbOut σ)
    (hfile : ∀ s p i, i.isDir = false → cb' s p i = skipToOk (cb s p i))
    (hdir : ∀ s p i, i.isDir = true → cb' s p i = cb s p i) :
    ∀ fuel : Nat,
      (∀ (s : σ) (p : String) (t : FSTree),
        walkNodeF cb' fuel s p t = walkNodeF cb fuel s p t) ∧
      (∀ (s : σ) (p : String) (ts : List FSTree),
        walkListF cb' fuel s p ts = walkListF cb fuel s p ts) := by
  intro fuel
  induction fuel with
  | zero => exact ⟨fun _ _ _ => rfl, fun _ _ _ => rfl⟩
  | succ n ih =>
    constructor
    · intro s p t
      cases t with
      | node name info children =>
        by_cases hd : info.isDir = true
        · show walkNodeF cb' (n + 1) s p (.node name info children) =
            walkNodeF cb (n + 1) s p (.node name info children)
          simp only [walkNodeF, hd, if_pos, hdir s p info hd, ih.2]
        · have hd' : info.isDir = false := by
            cases hinfo : info.isDir
            · rfl
            · exact absurd hinfo hd
          have hcb := hfile s p info hd'
          simp only [walkNodeF, hd', Bool.false_eq_true, if_false, hcb, skipToOk]
          cases hres : (cb s p info).res <;> simp
    · intro s p ts
      cases ts with
      | nil => rfl
      | cons t ts' =>
        simp only [walkListF, ih.1, ih.2]

/-! ## Claims -/

/-- C1 (amended): in the WalkLimitWithOptions wrapper, a per-entry error is
swallowed identically under the continue and the skip policies: the user
callback is not invoked for the failing entry and the wrapper returns
success, so the walk keeps going; only the stop policy propagates the
error.  The two policies give the callback the same view of the failing
input. -/
theorem errorPolicy_continue_skip_same_view
    (filter : FilterOptions) (sym : SymlinkHandling) (hasProgress : Bool) (env : FsEnv)
    (root : String) (userFn : String → FileInfo → WalkResult) (cache : List String)
    (stats : StatsM) (path : String) (info : Option FileInfo) (e : GoError) :
    optionsStep ErrorHandling.contOnError filter sym hasProgress env root userFn cache stats
        path info (some e) =
      optionsStep ErrorHandling.skipOnError filter sym hasProgress env root userFn cache stats
        path info (some e) ∧
    (optionsStep ErrorHandling.contOnError filter sym hasProgress env root userFn cache stats
        path info (some e)).userCall = none ∧
    (optionsStep ErrorHandling.contOnError filter sym hasProgress env root userFn cache stats
        path info (some e)).res = WalkResult.ok ∧
    (optionsStep ErrorHandling.stopOnError filter sym hasProgress env root userFn cache stats
        path info (some e)).res = WalkResult.fail e :=
  ⟨rfl, rfl, rfl, rfl⟩

/-- C1 counterexample: the claim says that under the continue policy the
per-entry error is reported through the user callback, and that continue
and skip give the callback different views.  At this concrete failing
entry the continue policy invokes no callback at all, and its whole
observable effect equals that of the skip policy. -/
theorem errorPolicy_continue_counterexample :
    (optionsStep ErrorHandling.contOnError {} SymlinkHandling.follow false emptyEnv ("/r")
        alwaysOkFn [] {} ("/r/x") none (some (GoError.base ("permission denied")))).userCall =
      none ∧
    optionsStep ErrorHandling.contOnError {} SymlinkHandling.follow false emptyEnv ("/r")
        alwaysOkFn [] {} ("/r/x") none (some (GoError.base ("permission denied"))) =
      optionsStep ErrorHandling.skipOnError {} SymlinkHandling.follow false emptyEnv ("/r")
        alwaysOkFn [] {} ("/r/x") none (some (GoError.base ("permission denied"))) :=
  ⟨rfl, rfl⟩

/-- C2: the walk return value.  A single collected cancellation error is
returned verbatim as the cancellation error; otherwise, when every
collected error equals the first (in the sense the source tests: errors.Is
or an identical Error() string), that single underlying error is returned;
otherwise the aggregate holding all collected errors is returned. -/
theorem walk_error_collapse (first : GoError) (rest : List GoError) :
    (rest = [] →
      (goErrorIs first GoError.canceled || (errString first == "context canceled")) = true →
      collectWalkErrors (first :: rest) = WalkReturn.err GoError.canceled) ∧
    (¬(rest = [] ∧
        (goErrorIs first GoError.canceled || (errString first == "context canceled")) = true) →
      (∀ e ∈ rest, (goErrorIs e first || (errString e == errString first)) = true) →
      collectWalkErrors (first :: rest) = WalkReturn.err first) ∧
    (¬(rest = [] ∧
        (goErrorIs first GoError.canceled || (errString first == "context canceled")) = true) →
      ¬(∀ e ∈ rest, (goErrorIs e first || (errString e == errString first)) = true) →
      collectWalkErrors (first :: rest) = WalkReturn.aggregate (first :: rest)) := by
  refine ⟨?_, ?_, ?_⟩
  · intro h1 h2
    simp only [collectWalkErrors]
    rw [if_pos ⟨by simp [h1], h2⟩]
  · intro h1 h2
    simp only [collectWalkErrors]
    rw [if_neg fun hc => h1 ⟨List.length_eq_zero.mp hc.1, hc.2⟩,
      if_pos (List.all_eq_true.mpr h2)]
  · intro h1 h2
    simp only [collectWalkErrors]
    rw [if_neg fun hc => h1 ⟨List.length_eq_zero.mp hc.1, hc.2⟩,
      if_neg fun hc => h2 (List.all_eq_true.mp hc)]

/-- C2 witness: two equal collected errors collapse to that single
error. -/
theorem walk_error_collapse_witness :
    collectWalkErrors [GoError.base ("e1"), GoError.base ("e1")] =
      WalkReturn.err (GoError.base ("e1")) :=
  (walk_error_collapse (GoError.base ("e1")) [GoError.base ("e1")]).2.1 (by decide) (by decide)

/-- C3 (amended): SkipDir returned for a directory prunes descent and
collects no error; on non-directory entries a SkipDir return has the same
effect as success on everything the engine produces; but the
progress-monitoring wrapper counts every non-nil callback return, SkipDir
included, in its error counter. -/
theorem skipDir_semantics :
    (∀ (σ : Type) (cb : σ → String → FileInfo → CbOut σ) (s : σ) (p name : String)
        (i : FileInfo) (cs : List FSTree) (fuel : Nat),
      i.isDir = true → (cb s p i).res = WalkResult.skipDir →
      walkNodeF cb (fuel + 1) s p (FSTree.node name i cs) =
        ((cb s p i).state, (cb s p i).delivered, ([] : List GoError))) ∧
    (∀ (σ : Type) (cb cb' : σ → String → FileInfo → CbOut σ),
      (∀ s p i, i.isDir = false → cb' s p i = skipToOk (cb s p i)) →
      (∀ s p i, i.isDir = true → cb' s p i = cb s p i) →
      ∀ (fuel : Nat) (s : σ) (p : String) (t : FSTree),
        walkNodeF cb' fuel s p t = walkNodeF cb fuel s p t) ∧
    (∀ (env : FsEnv) (r : WalkResult) (stats : StatsM) (path : String) (info : FileInfo),
      r ≠ WalkResult.ok →
      (progressStep env r stats path info none).1.errors = stats.errors + 1) := by
  refine ⟨?_, ?_, ?_⟩
  · intro σ cb s p name i cs fuel hdir hres
    simp only [walkNodeF, hdir, if_true, hres]
  · intro σ cb cb' hfile hdir fuel s p t
    exact (walk_skipToOk_eq cb cb' hfile hdir fuel).1 s p t
  · intro env r stats path info hr
    simp only [progressStep, if_pos hr]
    by_cases hd : info.isDir = true <;> by_cases hf : env.hasFilesFn path = true <;>
      simp [hd, hf]

/-- C3 witness: a callback answering SkipDir on the root directory prunes
the whole subtree and collects nothing. -/
theorem skipDir_semantics_witness :
    walkNodeF (fun (_ : Unit) p (i : FileInfo) => CbOut.mk () [(p, i.isDir)] WalkResult.skipDir)
        4 () ("/r")
        (FSTree.node ("r") (mkDirInfo ("r")) [FSTree.node ("f") (mkFileInfo ("f") 1) []]) =
      ((), [("/r", true)], ([] : List GoError)) :=
  (skipDir_semantics).1 Unit
    (fun (_ : Unit) p (i : FileInfo) => CbOut.mk () [(p, i.isDir)] WalkResult.skipDir)
    () ("/r") ("r") (mkDirInfo ("r")) [FSTree.node ("f") (mkFileInfo ("f") 1) []] 3
    (by decide) rfl

/-- C3 counterexample: the claim says a SkipDir return is never recorded
through any error counter, citing the progress variant; there, a SkipDir
return for a directory increments the error counter from 0 to 1. -/
theorem skipDir_error_counter_counterexample :
    (progressStep emptyEnv WalkResult.skipDir {} ("/r/d") (mkDirInfo ("d")) none).1.errors = 1 ∧
    (progressStep emptyEnv WalkResult.skipDir {} ("/r/d") (mkDirInfo ("d")) none).2 =
      WalkResult.skipDir :=
  ⟨by decide, by decide⟩

/-- C4 (amended): a top-level WalkLimitWithFilter call resets the symlink
visited-set at entry, so its whole outcome is independent of the
visited-set left behind by an earlier traversal; it depends on the incoming
engine state only through the excluded-directory cache, which the source
never resets. -/
theorem walkFilter_visited_reset (fuel : Nat) (env : FsEnv) (filter : FilterOptions)
    (userFn : String → FileInfo → WalkResult) (root : String) (tree : FSTree)
    (st st' : EngineState) (h : st.cache = st'.cache) :
    walkLimitWithFilterModel fuel env filter userFn st root tree =
      walkLimitWithFilterModel fuel env filter userFn st' root tree := by
  unfold walkLimitWithFilterModel
  rw [h]

/-- C4 witness: a stale visited-set entry does not change a traversal. -/
theorem walkFilter_visited_reset_witness :
    walkLimitWithFilterModel 20 fixEnv {} alwaysOkFn ⟨["/r/stale"], []⟩ ("/r") fixTree =
      walkLimitWithFilterModel 20 fixEnv {} alwaysOkFn ⟨[], []⟩ ("/r") fixTree :=
  walkFilter_visited_reset 20 fixEnv {} alwaysOkFn ("/r") fixTree ⟨["/r/stale"], []⟩ ⟨[], []⟩ rfl

set_option maxRecDepth 8000

/-- C4 counterexample: the claim says both caches are reset at every
top-level entry point, making a second call independent of the first.
Here a first call excluding sub caches /r/sub as excluded; a second call
with no excludes started from the resulting state delivers only the root,
while the same call started fresh delivers the whole tree, so the
excluded-directory cache is not reset and the second call depends on the
first. -/
theorem walkFilter_cache_not_reset_counterexample :
    (walkLimitWithFilterModel 20 fixEnv {} alwaysOkFn
        ((walkLimitWithFilterModel 20 fixEnv { ExcludeDir := ["sub"] } alwaysOkFn ⟨[], []⟩
          ("/r") fixTree).1) ("/r") fixTree).2.1 ≠
      (walkLimitWithFilterModel 20 fixEnv {} alwaysOkFn ⟨[], []⟩ ("/r") fixTree).2.1 := by
  decide

/-- C5 (amended): with the exact-permissions clause enabled the filter
accepts an entry only if the lower nine permission bits of its mode equal
the exact value: the comparison goes through FileMode.Perm, which masks
with 0o777, and the unix-to-FileMode translation moves setuid, setgid and
sticky out of the low bits, so those three bits are not covered. -/
theorem exactPermissions_lower9 :
    (∀ (path : String) (info : FileInfo) (filter : FilterOptions) (env : FsEnv)
        (sym : SymlinkHandling),
      filter.UseExactPermissions = true → filter.ExactPermissions ≠ 0 →
      filePassesFilter path info filter env sym = true →
      info.mode &&& 0o777 = filter.ExactPermissions) ∧
    (∀ u : Nat, goPerm (goModeOfUnix u) = u &&& 0o777) := by
  constructor
  · intro path info filter env sym huse hexact hacc
    have hperm : permOk filter info = true := by
      by_contra hne
      have hfalse : permOk filter info = false := by
        cases hpo : permOk filter info
        · rfl
        · exact absurd hpo hne
      simp [filePassesFilter, hfalse] at hacc
    simp only [permOk, if_pos (show filter.UseExactPermissions = true ∧
      filter.ExactPermissions ≠ 0 from ⟨huse, hexact⟩)] at hperm
    exact beq_iff_eq.mp hperm
  · intro u
    show (goModeOfUnix u) &&& 0o777 = u &&& 0o777
    simp only [goModeOfUnix]
    have h3 : (if u &&& 0o1000 ≠ 0 then ModeSticky else 0) &&& 0o777 = 0 := by
      split_ifs <;> decide
    have h2 : (if u &&& 0o2000 ≠ 0 then ModeSetgid else 0) &&& 0o777 = 0 := by
      split_ifs <;> decide
    have h1 : (if u &&& 0o4000 ≠ 0 then ModeSetuid else 0) &&& 0o777 = 0 := by
      split_ifs <;> decide
    have ht : (if u &&& 0o170000 = 0o60000 then ModeDevice
        else if u &&& 0o170000 = 0o20000 then ModeDevice ||| ModeCharDevice
        else if u &&& 0o170000 = 0o40000 then ModeDir
        else if u &&& 0o170000 = 0o10000 then ModeNamedPipe
        else if u &&& 0o170000 = 0o120000 then ModeSymlink
        else if u &&& 0o170000 = 0o140000 then ModeSocket
        else 0) &&& 0o777 = 0 := by
      split_ifs <;> decide
    rw [lor_land_cancel _ _ _ h3, lor_land_cancel _ _ _ h2, lor_land_cancel _ _ _ h1,
      lor_land_cancel _ _ _ ht, Nat.land_assoc]
    rfl

/-- C5 witness: a plain 0644 regular file passes the exact-0644 filter and
its mode masked to nine bits is 0644. -/
theorem exactPermissions_lower9_witness :
    (mkFileInfo ("f") 10).mode &&& 0o777 = 0o644 :=
  (exactPermissions_lower9).1 ("/r/f") (mkFileInfo ("f") 10)
    { UseExactPermissions := true, ExactPermissions := 0o644 } emptyEnv
    SymlinkHandling.follow rfl (by decide) (by decide)

/-- C5 counterexample: a setuid 0644 file (unix mode 0o104644) is accepted
by the exact-0o644 clause although its mode masked with 0o7777 is 0o4644,
not 0o644 — the comparison does not cover the setuid bit as the claim
states. -/
theorem exactPermissions_setuid_counterexample :
    filePassesFilter ("/r/f")
        { name := "f", size := 10, mode := goModeOfUnix 0o104644, modTime := zeroTime }
        { UseExactPermissions := true, ExactPermissions := 0o644 } emptyEnv
        SymlinkHandling.follow = true ∧
    (0o104644 : Nat) &&& 0o7777 ≠ 0o644 :=
  ⟨by decide, by decide⟩

/-- The message Find builds for the fixture file /r/f.txt. -/
def fixMsg : FindMessage :=
  { Path := "/r/f.txt", Name := "f.txt", Dir := "/r", Size := 1, Time := zeroTime,
    IsDir := false }

/-- C6 (amended): the older-than clause is not converted to an absolute
threshold at call time; it is evaluated per entry as now - mtime > d with
now the clock value read when the entry is matched (time.Since), so an
entry is accepted exactly when it is old enough at its own evaluation
instant. -/
theorem olderThan_per_entry_clock (now : Int) (opts : FindOptions) (msg : FindMessage)
    (h1 : opts.OlderThan > 0) (h2 : matchFindAt now opts msg = true) :
    now - msg.Time.unix > opts.OlderThan := by
  have h5 : (!decide (opts.OlderThan > 0) ||
      decide (now - msg.Time.unix > opts.OlderThan)) = true := by
    by_contra hb
    have hfalse : (!decide (opts.OlderThan > 0) ||
        decide (now - msg.Time.unix > opts.OlderThan)) = false := by
      cases hc : (!decide (opts.OlderThan > 0) ||
          decide (now - msg.Time.unix > opts.OlderThan))
      · rfl
      · exact absurd hc hb
    simp [matchFindAt, hfalse] at h2
  rw [decide_eq_true h1] at h5
  simp only [Bool.not_true, Bool.false_or] at h5
  exact of_decide_eq_true h5

/-- C6 witness: with older-than 10 and an entry of modification time 0
matched when the clock reads 20, the per-entry clause holds. -/
theorem olderThan_per_entry_clock_witness :
    (20 : Int) - ({ Path := "/r/f.txt", Time := zeroTime } : FindMessage).Time.unix > 10 :=
  olderThan_per_entry_clock 20 { OlderThan := 10 } { Path := "/r/f.txt", Time := zeroTime }
    (by decide) (by decide)

/-- C6 counterexample: the claim fixes now at the moment the find call
began.  Take a call that begins at clock 5 with older-than 10 over an
entry of modification time 0: at call time the entry is not old enough, so
the claimed semantics rejects it; but the code evaluates time.Since when
the entry is matched, here at clock 20, and delivers it. -/
theorem olderThan_call_time_counterexample :
    (findCallback 20 { OlderThan := 10 } ("/r") (fun _ => none) ("/r/f.txt")
        (mkFileInfo ("f.txt") 1) none).1 = some { Message := fixMsg } ∧
    matchFindAt 5 { OlderThan := 10 } fixMsg = false :=
  ⟨by decide, by decide⟩

/-- C7 (amended): in the stride filter the glob clause is matched against
the base name only, so an entry whose base name fails the pattern is
rejected no matter what its path contains; in the find layer, nameMatch
falls back on a clean base-name miss to comparing the pattern for literal
equality against every separator-split path component, and accepts exactly
when some component equals it. -/
theorem globPattern_base_name :
    (∀ (path : String) (info : FileInfo) (filter : FilterOptions) (env : FsEnv)
        (sym : SymlinkHandling),
      filter.Pattern ≠ "" → goMatchBool filter.Pattern info.name = false →
      filePassesFilter path info filter env sym = false) ∧
    (∀ pattern path : String, goMatch pattern (goBase path) = some false →
      (nameMatch pattern path = true ↔
        (splitChar '/' path.toList).any (fun comp => comp == pattern.toList) = true)) := by
  constructor
  · intro path info filter env sym hp hm
    have hpat : patternOk filter info = false := by
      simp only [patternOk, if_pos hp]
      exact hm
    simp [filePassesFilter, hpat]
  · intro pattern path h
    simp [nameMatch, h]

/-- C7 witness: a file whose base name fails the pattern is rejected by the
stride filter. -/
theorem globPattern_base_name_witness :
    filePassesFilter ("/a/foo/bar.txt") (mkFileInfo ("bar.txt") 1) { Pattern := "*.go" }
      emptyEnv SymlinkHandling.follow = false :=
  (globPattern_base_name).1 ("/a/foo/bar.txt") (mkFileInfo ("bar.txt") 1)
    { Pattern := "*.go" } emptyEnv SymlinkHandling.follow (by decide) (by decide)

/-- C7 counterexample: the claim says an entry whose base name does not
match is rejected by the glob clause regardless of the rest of its path.
The find layer accepts /a/foo/bar.txt under pattern foo although the base
name bar.txt does not match, because the component foo equals the pattern
literally. -/
theorem globPattern_component_counterexample :
    nameMatch ("foo") ("/a/foo/bar.txt") = true ∧
    goMatch ("foo") (goBase ("/a/foo/bar.txt")) = some false ∧
    matchFindAt 0 { NamePattern := "foo" }
      { Path := "/a/foo/bar.txt", Name := "bar.txt" } = true :=
  ⟨by decide, by decide, by decide⟩

/-- C10: Find never passes a directory to the handler with a nil error:
whatever single entry the walk callback processes, a result delivered with
no error describes a non-directory. -/
theorem find_never_delivers_directory (now : Int) (opts : FindOptions) (root : String)
    (handler : FindResult → Option GoError) (path : String) (info : FileInfo)
    (err : Option GoError) (r : FindResult)
    (hdel : (findCallback now opts root handler path info err).1 = some r)
    (hok : r.Error = none) :
    r.Message.IsDir = false := by
  cases err with
  | some e =>
    simp only [findCallback] at hdel
    have hr := Option.some.inj hdel
    rw [← hr] at hok
    simp at hok
  | none =>
    simp only [findCallback] at hdel
    cases hh : (!opts.IncludeHidden && isHidden path) with
    | true =>
      rw [if_pos hh] at hdel
      simp at hdel
    | false =>
      rw [if_neg (by simp only [hh]; exact Bool.false_ne_true)] at hdel
      cases hmd : (opts.MaxDepth > 0 && info.isDir &&
          decide (goUintOfInt ((countChar '/' path.toList : Int) -
            (countChar '/' root.toList : Int)) > opts.MaxDepth)) with
      | true =>
        rw [if_pos hmd] at hdel
        simp at hdel
      | false =>
        rw [if_neg (by simp only [hmd]; exact Bool.false_ne_true)] at hdel
        cases hid : info.isDir with
        | true =>
          rw [if_pos hid] at hdel
          simp at hdel
        | false =>
          rw [if_neg (by simp only [hid]; exact Bool.false_ne_true)] at hdel
          cases hmt : matchFindAt now opts
              { Path := path, Name := goBase path, Dir := goDir path, Size := info.size,
                Time := info.modTime, IsDir := info.isDir, Metadata := [], Tags := [],
                VersionID := "" } with
          | true =>
            rw [if_pos hmt] at hdel
            have hr := Option.some.inj hdel
            rw [← hr]
            simp [hid]
          | false =>
            rw [if_neg (by simp only [hmt]; exact Bool.false_ne_true)] at hdel
            simp at hdel

/-- C10 witness: a delivered plain file is reported as a non-directory. -/
theorem find_never_delivers_directory_witness :
    ({ Message := fixMsg, Error := none } : FindResult).Message.IsDir = false :=
  find_never_delivers_directory 20 {} ("/r") (fun _ => none) ("/r/f.txt")
    (mkFileInfo ("f.txt") 1) none { Message := fixMsg, Error := none } (by decide) rfl

/-- C8 (amended): the formatter substitutes, by sequential textual
replacement in a fixed order, the placeholders for path, base, dir, size
and time (RFC3339), their shell-quoted variants, and the version
placeholders when the entry carries a version id; the placeholders for
atime, ctime, mode, owner, group, type, ext and event are not recognised
and stay literal (the watch handlers substitute the event placeholder
before formatting).  Stated for messages whose field values contain no
placeholder text; because replacement is sequential, not single-pass, a
value that does contain placeholder text is re-substituted, as the
counterexample shows. -/
theorem formatCommand_placeholders (msg : FindMessage) (hv : msg.VersionID ≠ "")
    (hclean : ∀ v ∈ [msg.Path, msg.Name, msg.Dir, toString msg.Size, msg.Time.rfc3339,
        msg.VersionID, goQuote msg.Path, goQuote msg.Name, goQuote msg.Dir,
        goQuote (toString msg.Size), goQuote msg.Time.rfc3339, goQuote msg.VersionID],
      ∀ p ∈ implPlaceholders, containsSubstr p.toList v.toList = false) :
    formatCommand phPath msg = msg.Path ∧
    formatCommand phBase msg = msg.Name ∧
    formatCommand phDir msg = msg.Dir ∧
    formatCommand phSize msg = (toString msg.Size) ∧
    formatCommand phTime msg = msg.Time.rfc3339 ∧
    formatCommand phQPath msg = (goQuote msg.Path) ∧
    formatCommand phQBase msg = (goQuote msg.Name) ∧
    formatCommand phQDir msg = (goQuote msg.Dir) ∧
    formatCommand phQSize msg = (goQuote (toString msg.Size)) ∧
    formatCommand phQTime msg = (goQuote msg.Time.rfc3339) ∧
    formatCommand phVersion msg = msg.VersionID ∧
    formatCommand phQVersion msg = (goQuote msg.VersionID) ∧
    formatCommand ("\x7batime\x7d") msg = "\x7batime\x7d" ∧
    formatCommand ("\x7bctime\x7d") msg = "\x7bctime\x7d" ∧
    formatCommand ("\x7bmode\x7d") msg = "\x7bmode\x7d" ∧
    formatCommand ("\x7bowner\x7d") msg = "\x7bowner\x7d" ∧
    formatCommand ("\x7bgroup\x7d") msg = "\x7bgroup\x7d" ∧
    formatCommand ("\x7btype\x7d") msg = "\x7btype\x7d" ∧
    formatCommand ("\x7bext\x7d") msg = "\x7bext\x7d" ∧
    formatCommand ("\x7bevent\x7d") msg = "\x7bevent\x7d" := by
  have cP := hclean msg.Path (by simp)
  have cN := hclean msg.Name (by simp)
  have cD := hclean msg.Dir (by simp)
  have cS := hclean (toString msg.Size) (by simp)
  have cT := hclean msg.Time.rfc3339 (by simp)
  have cV := hclean msg.VersionID (by simp)
  have cQP := hclean (goQuote msg.Path) (by simp)
  have cQN := hclean (goQuote msg.Name) (by simp)
  have cQD := hclean (goQuote msg.Dir) (by simp)
  have cQS := hclean (goQuote (toString msg.Size)) (by simp)
  have cQT := hclean (goQuote msg.Time.rfc3339) (by simp)
  have cQV := hclean (goQuote msg.VersionID) (by simp)
  refine ⟨?_, ?_, ?_, ?_, ?_, ?_, ?_, ?_, ?_, ?_, ?_, ?_, ?_, ?_, ?_, ?_, ?_, ?_, ?_, ?_⟩
  · simp only [formatCommand,
      replaceAllStr_self phPath msg.Path (by decide),
      replaceAllStr_noop msg.Path phBase msg.Name (cP phBase (by simp [implPlaceholders])),
      replaceAllStr_noop msg.Path phDir msg.Dir (cP phDir (by simp [implPlaceholders])),
      replaceAllStr_noop msg.Path phSize (toString msg.Size) (cP phSize (by simp [implPlaceholders])),
      replaceAllStr_noop msg.Path phTime msg.Time.rfc3339 (cP phTime (by simp [implPlaceholders])),
      replaceAllStr_noop msg.Path phQPath (goQuote msg.Path) (cP phQPath (by simp [implPlaceholders])),
      replaceAllStr_noop msg.Path phQBase (goQuote msg.Name) (cP phQBase (by simp [implPlaceholders])),
      replaceAllStr_noop msg.Path phQDir (goQuote msg.Dir) (cP phQDir (by simp [implPlaceholders])),
      replaceAllStr_noop msg.Path phQSize (goQuote (toString msg.Size)) (cP phQSize (by simp [implPlaceholders])),
      replaceAllStr_noop msg.Path phQTime (goQuote msg.Time.rfc3339) (cP phQTime (by simp [implPlaceholders])),
      if_pos hv,
      replaceAllStr_noop msg.Path phVersion msg.VersionID (cP phVersion (by simp [implPlaceholders])),
      replaceAllStr_noop msg.Path phQVersion (goQuote msg.VersionID) (cP phQVersion (by simp [implPlaceholders]))]
  · simp only [formatCommand,
      replaceAllStr_noop phBase phPath msg.Path (by decide),
      replaceAllStr_self phBase msg.Name (by decide),
      replaceAllStr_noop msg.Name phDir msg.Dir (cN phDir (by simp [implPlaceholders])),
      replaceAllStr_noop msg.Name phSize (toString msg.Size) (cN phSize (by simp [implPlaceholders])),
      replaceAllStr_noop msg.Name phTime msg.Time.rfc3339 (cN phTime (by simp [implPlaceholders])),
      replaceAllStr_noop msg.Name phQPath (goQuote msg.Path) (cN phQPath (by simp [implPlaceholders])),
      replaceAllStr_noop msg.Name phQBase (goQuote msg.Name) (cN phQBase (by simp [implPlaceholders])),
      replaceAllStr_noop msg.Name phQDir (goQuote msg.Dir) (cN phQDir (by simp [implPlaceholders])),
      replaceAllStr_noop msg.Name phQSize (goQuote (toString msg.Size)) (cN phQSize (by simp [implPlaceholders])),
      replaceAllStr_noop msg.Name phQTime (goQuote msg.Time.rfc3339) (cN phQTime (by simp [implPlaceholders])),
      if_pos hv,
      replaceAllStr_noop msg.Name phVersion msg.VersionID (cN phVersion (by simp [implPlaceholders])),
      replaceAllStr_noop msg.Name phQVersion (goQuote msg.VersionID) (cN phQVersion (by simp [implPlaceholders]))]
  · simp only [formatCommand,
      replaceAllStr_noop phDir phPath msg.Path (by decide),
      replaceAllStr_noop phDir phBase msg.Name (by decide),
      replaceAllStr_self phDir msg.Dir (by decide),
      replaceAllStr_noop msg.Dir phSize (toString msg.Size) (cD phSize (by simp [implPlaceholders])),
      replaceAllStr_noop msg.Dir phTime msg.Time.rfc3339 (cD phTime (by simp [implPlaceholders])),
      replaceAllStr_noop msg.Dir phQPath (goQuote msg.Path) (cD phQPath (by simp [implPlaceholders])),
      replaceAllStr_noop msg.Dir phQBase (goQuote msg.Name) (cD phQBase (by simp [implPlaceholders])),
      replaceAllStr_noop msg.Dir phQDir (goQuote msg.Dir) (cD phQDir (by simp [implPlaceholders])),
      replaceAllStr_noop msg.Dir phQSize (goQuote (toString msg.Size)) (cD phQSize (by simp [implPlaceholders])),
      replaceAllStr_noop msg.Dir phQTime (goQuote msg.Time.rfc3339) (cD phQTime (by simp [implPlaceholders])),
      if_pos hv,
      replaceAllStr_noop msg.Dir phVersion msg.VersionID (cD phVersion (by simp [implPlaceholders])),
      replaceAllStr_noop msg.Dir phQVersion (goQuote msg.VersionID) (cD phQVersion (by simp [implPlaceholders]))]
  · simp only [formatCommand,
      replaceAllStr_noop phSize phPath msg.Path (by decide),
      replaceAllStr_noop phSize phBase msg.Name (by decide),
      replaceAllStr_noop phSize phDir msg.Dir (by decide),
      replaceAllStr_self phSize (toString msg.Size) (by decide),
      replaceAllStr_noop (toString msg.Size) phTime msg.Time.rfc3339 (cS phTime (by simp [implPlaceholders])),
      replaceAllStr_noop (toString msg.Size) phQPath (goQuote msg.Path) (cS phQPath (by simp [implPlaceholders])),
      replaceAllStr_noop (toString msg.Size) phQBase (goQuote msg.Name) (cS phQBase (by simp [implPlaceholders])),
      replaceAllStr_noop (toString msg.Size) phQDir (goQuote msg.Dir) (cS phQDir (by simp [implPlaceholders])),
      replaceAllStr_noop (toString msg.Size) phQSize (goQuote (toString msg.Size)) (cS phQSize (by simp [implPlaceholders])),
      replaceAllStr_noop (toString msg.Size) phQTime (goQuote msg.Time.rfc3339) (cS phQTime (by simp [implPlaceholders])),
      if_pos hv,
      replaceAllStr_noop (toString msg.Size) phVersion msg.VersionID (cS phVersion (by simp [implPlaceholders])),
      replaceAllStr_noop (toString msg.Size) phQVersion (goQuote msg.VersionID) (cS phQVersion (by simp [implPlaceholders]))]
  · simp only [formatCommand,
      replaceAllStr_noop phTime phPath msg.Path (by decide),
      replaceAllStr_noop phTime phBase msg.Name (by decide),
      replaceAllStr_noop phTime phDir msg.Dir (by decide),
      replaceAllStr_noop phTime phSize (toString msg.Size) (by decide),
      replaceAllStr_self phTime msg.Time.rfc3339 (by decide),
      replaceAllStr_noop msg.Time.rfc3339 phQPath (goQuote msg.Path) (cT phQPath (by simp [implPlaceholders])),
      replaceAllStr_noop msg.Time.rfc3339 phQBase (goQuote msg.Name) (cT phQBase (by simp [implPlaceholders])),
      replaceAllStr_noop msg.Time.rfc3339 phQDir (goQuote msg.Dir) (cT phQDir (by simp [implPlaceholders])),
      replaceAllStr_noop msg.Time.rfc3339 phQSize (goQuote (toString msg.Size)) (cT phQSize (by simp [implPlaceholders])),
      replaceAllStr_noop msg.Time.rfc3339 phQTime (goQuote msg.Time.rfc3339) (cT phQTime (by simp [implPlaceholders])),
      if_pos hv,
      replaceAllStr_noop msg.Time.rfc3339 phVersion msg.VersionID (cT phVersion (by simp [implPlaceholders])),
      replaceAllStr_noop msg.Time.rfc3339 phQVersion (goQuote msg.VersionID) (cT phQVersion (by simp [implPlaceholders]))]
  · simp only [formatCommand,
      replaceAllStr_noop phQPath phPath msg.Path (by decide),
      replaceAllStr_noop phQPath phBase msg.Name (by decide),
      replaceAllStr_noop phQPath phDir msg.Dir (by decide),
      replaceAllStr_noop phQPath phSize (toString msg.Size) (by decide),
      replaceAllStr_noop phQPath phTime msg.Time.rfc3339 (by decide),
      replaceAllStr_self phQPath (goQuote msg.Path) (by decide),
      replaceAllStr_noop (goQuote msg.Path) phQBase (goQuote msg.Name) (cQP phQBase (by simp [implPlaceholders])),
      replaceAllStr_noop (goQuote msg.Path) phQDir (goQuote msg.Dir) (cQP phQDir (by simp [implPlaceholders])),
      replaceAllStr_noop (goQuote msg.Path) phQSize (goQuote (toString msg.Size)) (cQP phQSize (by simp [implPlaceholders])),
      replaceAllStr_noop (goQuote msg.Path) phQTime (goQuote msg.Time.rfc3339) (cQP phQTime (by simp [implPlaceholders])),
      if_pos hv,
      replaceAllStr_noop (goQuote msg.Path) phVersion msg.VersionID (cQP phVersion (by simp [implPlaceholders])),
      replaceAllStr_noop (goQuote msg.Path) phQVersion (goQuote msg.VersionID) (cQP phQVersion (by simp [implPlaceholders]))]
  · simp only [formatCommand,
      replaceAllStr_noop phQBase phPath msg.Path (by decide),
      replaceAllStr_noop phQBase phBase msg.Name (by decide),
      replaceAllStr_noop phQBase phDir msg.Dir (by decide),
      replaceAllStr_noop phQBase phSize (toString msg.Size) (by decide),
      replaceAllStr_noop phQBase phTime msg.Time.rfc3339 (by decide),
      replaceAllStr_noop phQBase phQPath (goQuote msg.Path) (by decide),
      replaceAllStr_self phQBase (goQuote msg.Name) (by decide),
      replaceAllStr_noop (goQuote msg.Name) phQDir (goQuote msg.Dir) (cQN phQDir (by simp [implPlaceholders])),
      replaceAllStr_noop (goQuote msg.Name) phQSize (goQuote (toString msg.Size)) (cQN phQSize (by simp [implPlaceholders])),
      replaceAllStr_noop (goQuote msg.Name) phQTime (goQuote msg.Time.rfc3339) (cQN phQTime (by simp [implPlaceholders])),
      if_pos hv,
      replaceAllStr_noop (goQuote msg.Name) phVersion msg.VersionID (cQN phVersion (by simp [implPlaceholders])),
      replaceAllStr_noop (goQuote msg.Name) phQVersion (goQuote msg.VersionID) (cQN phQVersion (by simp [implPlaceholders]))]
  · simp only [formatCommand,
      replaceAllStr_noop phQDir phPath msg.Path (by decide),
      replaceAllStr_noop phQDir phBase msg.Name (by decide),
      replaceAllStr_noop phQDir phDir msg.Dir (by decide),
      replaceAllStr_noop phQDir phSize (toString msg.Size) (by decide),
      replaceAllStr_noop phQDir phTime msg.Time.rfc3339 (by decide),
      replaceAllStr_noop phQDir phQPath (goQuote msg.Path) (by decide),
      replaceAllStr_noop phQDir phQBase (goQuote msg.Name) (by decide),
      replaceAllStr_self phQDir (goQuote msg.Dir) (by decide),
      replaceAllStr_noop (goQuote msg.Dir) phQSize (goQuote (toString msg.Size)) (cQD phQSize (by simp [implPlaceholders])),
      replaceAllStr_noop (goQuote msg.Dir) phQTime (goQuote msg.Time.rfc3339) (cQD phQTime (by simp [implPlaceholders])),
      if_pos hv,
      replaceAllStr_noop (goQuote msg.Dir) phVersion msg.VersionID (cQD phVersion (by simp [implPlaceholders])),
      replaceAllStr_noop (goQuote msg.Dir) phQVersion (goQuote msg.VersionID) (cQD phQVersion (by simp [implPlaceholders]))]
  · simp only [formatCommand,
      replaceAllStr_noop phQSize phPath msg.Path (by decide),
      replaceAllStr_noop phQSize phBase msg.Name (by decide),
      replaceAllStr_noop phQSize phDir msg.Dir (by decide),
      replaceAllStr_noop phQSize phSize (toString msg.Size) (by decide),
      replaceAllStr_noop phQSize phTime msg.Time.rfc3339 (by decide),
      replaceAllStr_noop phQSize phQPath (goQuote msg.Path) (by decide),
      replaceAllStr_noop phQSize phQBase (goQuote msg.Name) (by decide),
      replaceAllStr_noop phQSize phQDir (goQuote msg.Dir) (by decide),
      replaceAllStr_self phQSize (goQuote (toString msg.Size)) (by decide),
      replaceAllStr_noop (goQuote (toString msg.Size)) phQTime (goQuote msg.Time.rfc3339) (cQS phQTime (by simp [implPlaceholders])),
      if_pos hv,
      replaceAllStr_noop (goQuote (toString msg.Size)) phVersion msg.VersionID (cQS phVersion (by simp [implPlaceholders])),
      replaceAllStr_noop (goQuote (toString msg.Size)) phQVersion (goQuote msg.VersionID) (cQS phQVersion (by simp [implPlaceholders]))]
  · simp only [formatCommand,
      replaceAllStr_noop phQTime phPath msg.Path (by decide),
      replaceAllStr_noop phQTime phBase msg.Name (by decide),
      replaceAllStr_noop phQTime phDir msg.Dir (by decide),
      replaceAllStr_noop phQTime phSize (toString msg.Size) (by decide),
      replaceAllStr_noop phQTime phTime msg.Time.rfc3339 (by decide),
      replaceAllStr_noop phQTime phQPath (goQuote msg.Path) (by decide),
      replaceAllStr_noop phQTime phQBase (goQuote msg.Name) (by decide),
      replaceAllStr_noop phQTime phQDir (goQuote msg.Dir) (by decide),
      replaceAllStr_noop phQTime phQSize (goQuote (toString msg.Size)) (by decide),
      replaceAllStr_self phQTime (goQuote msg.Time.rfc3339) (by decide),
      if_pos hv,
      replaceAllStr_noop (goQuote msg.Time.rfc3339) phVersion msg.VersionID (cQT phVersion (by simp [implPlaceholders])),
      replaceAllStr_noop (goQuote msg.Time.rfc3339) phQVersion (goQuote msg.VersionID) (cQT phQVersion (by simp [implPlaceholders]))]
  · simp only [formatCommand,
      replaceAllStr_noop phVersion phPath msg.Path (by decide),
      replaceAllStr_noop phVersion phBase msg.Name (by decide),
      replaceAllStr_noop phVersion phDir msg.Dir (by decide),
      replaceAllStr_noop phVersion phSize (toString msg.Size) (by decide),
      replaceAllStr_noop phVersion phTime msg.Time.rfc3339 (by decide),
      replaceAllStr_noop phVersion phQPath (goQuote msg.Path) (by decide),
      replaceAllStr_noop phVersion phQBase (goQuote msg.Name) (by decide),
      replaceAllStr_noop phVersion phQDir (goQuote msg.Dir) (by decide),
      replaceAllStr_noop phVersion phQSize (goQuote (toString msg.Size)) (by decide),
      replaceAllStr_noop phVersion phQTime (goQuote msg.Time.rfc3339) (by decide),
      if_pos hv,
      replaceAllStr_self phVersion msg.VersionID (by decide),
      replaceAllStr_noop msg.VersionID phQVersion (goQuote msg.VersionID) (cV phQVersion (by simp [implPlaceholders]))]
  · simp only [formatCommand,
      replaceAllStr_noop phQVersion phPath msg.Path (by decide),
      replaceAllStr_noop phQVersion phBase msg.Name (by decide),
      replaceAllStr_noop phQVersion phDir msg.Dir (by decide),
      replaceAllStr_noop phQVersion phSize (toString msg.Size) (by decide),
      replaceAllStr_noop phQVersion phTime msg.Time.rfc3339 (by decide),
      replaceAllStr_noop phQVersion phQPath (goQuote msg.Path) (by decide),
      replaceAllStr_noop phQVersion phQBase (goQuote msg.Name) (by decide),
      replaceAllStr_noop phQVersion phQDir (goQuote msg.Dir) (by decide),
      replaceAllStr_noop phQVersion phQSize (goQuote (toString msg.Size)) (by decide),
      replaceAllStr_noop phQVersion phQTime (goQuote msg.Time.rfc3339) (by decide),
      if_pos hv,
      replaceAllStr_noop phQVersion phVersion msg.VersionID (by decide),
      replaceAllStr_self phQVersion (goQuote msg.VersionID) (by decide)]
  · simp only [formatCommand,
      replaceAllStr_noop ("\x7batime\x7d") phPath msg.Path (by decide),
      replaceAllStr_noop ("\x7batime\x7d") phBase msg.Name (by decide),
      replaceAllStr_noop ("\x7batime\x7d") phDir msg.Dir (by decide),
      replaceAllStr_noop ("\x7batime\x7d") phSize (toString msg.Size) (by decide),
      replaceAllStr_noop ("\x7batime\x7d") phTime msg.Time.rfc3339 (by decide),
      replaceAllStr_noop ("\x7batime\x7d") phQPath (goQuote msg.Path) (by decide),
      replaceAllStr_noop ("\x7batime\x7d") phQBase (goQuote msg.Name) (by decide),
      replaceAllStr_noop ("\x7batime\x7d") phQDir (goQuote msg.Dir) (by decide),
      replaceAllStr_noop ("\x7batime\x7d") phQSize (goQuote (toString msg.Size)) (by decide),
      replaceAllStr_noop ("\x7batime\x7d") phQTime (goQuote msg.Time.rfc3339) (by decide),
      if_pos hv,
      replaceAllStr_noop ("\x7batime\x7d") phVersion msg.VersionID (by decide),
      replaceAllStr_noop ("\x7batime\x7d") phQVersion (goQuote msg.VersionID) (by decide)]
  · simp only [formatCommand,
      replaceAllStr_noop ("\x7bctime\x7d") phPath msg.Path (by decide),
      replaceAllStr_noop ("\x7bctime\x7d") phBase msg.Name (by decide),
      replaceAllStr_noop ("\x7bctime\x7d") phDir msg.Dir (by decide),
      replaceAllStr_noop ("\x7bctime\x7d") phSize (toString msg.Size) (by decide),
      replaceAllStr_noop ("\x7bctime\x7d") phTime msg.Time.rfc3339 (by decide),
      replaceAllStr_noop ("\x7bctime\x7d") phQPath (goQuote msg.Path) (by decide),
      replaceAllStr_noop ("\x7bctime\x7d") phQBase (goQuote msg.Name) (by decide),
      replaceAllStr_noop ("\x7bctime\x7d") phQDir (goQuote msg.Dir) (by decide),
      replaceAllStr_noop ("\x7bctime\x7d") phQSize (goQuote (toString msg.Size)) (by decide),
      replaceAllStr_noop ("\x7bctime\x7d") phQTime (goQuote msg.Time.rfc3339) (by decide),
      if_pos hv,
      replaceAllStr_noop ("\x7bctime\x7d") phVersion msg.VersionID (by decide),
      replaceAllStr_noop ("\x7bctime\x7d") phQVersion (goQuote msg.VersionID) (by decide)]
  · simp only [formatCommand,
      replaceAllStr_noop ("\x7bmode\x7d") phPath msg.Path (by decide),
      replaceAllStr_noop ("\x7bmode\x7d") phBase msg.Name (by decide),
      replaceAllStr_noop ("\x7bmode\x7d") phDir msg.Dir (by decide),
      replaceAllStr_noop ("\x7bmode\x7d") phSize (toString msg.Size) (by decide),
      replaceAllStr_noop ("\x7bmode\x7d") phTime msg.Time.rfc3339 (by decide),
      replaceAllStr_noop ("\x7bmode\x7d") phQPath (goQuote msg.Path) (by decide),
      replaceAllStr_noop ("\x7bmode\x7d") phQBase (goQuote msg.Name) (by decide),
      replaceAllStr_noop ("\x7bmode\x7d") phQDir (goQuote msg.Dir) (by decide),
      replaceAllStr_noop ("\x7bmode\x7d") phQSize (goQuote (toString msg.Size)) (by decide),
      replaceAllStr_noop ("\x7bmode\x7d") phQTime (goQuote msg.Time.rfc3339) (by decide),
      if_pos hv,
      replaceAllStr_noop ("\x7bmode\x7d") phVersion msg.VersionID (by decide),
      replaceAllStr_noop ("\x7bmode\x7d") phQVersion (goQuote msg.VersionID) (by decide)]
  · simp only [formatCommand,
      replaceAllStr_noop ("\x7bowner\x7d") phPath msg.Path (by decide),
      replaceAllStr_noop ("\x7bowner\x7d") phBase msg.Name (by decide),
      replaceAllStr_noop ("\x7bowner\x7d") phDir msg.Dir (by decide),
      replaceAllStr_noop ("\x7bowner\x7d") phSize (toString msg.Size) (by decide),
      replaceAllStr_noop ("\x7bowner\x7d") phTime msg.Time.rfc3339 (by decide),
      replaceAllStr_noop ("\x7bowner\x7d") phQPath (goQuote msg.Path) (by decide),
      replaceAllStr_noop ("\x7bowner\x7d") phQBase (goQuote msg.Name) (by decide),
      replaceAllStr_noop ("\x7bowner\x7d") phQDir (goQuote msg.Dir) (by decide),
      replaceAllStr_noop ("\x7bowner\x7d") phQSize (goQuote (toString msg.Size)) (by decide),
      replaceAllStr_noop ("\x7bowner\x7d") phQTime (goQuote msg.Time.rfc3339) (by decide),
      if_pos hv,
      replaceAllStr_noop ("\x7bowner\x7d") phVersion msg.VersionID (by decide),
      replaceAllStr_noop ("\x7bowner\x7d") phQVersion (goQuote msg.VersionID) (by decide)]
  · simp only [formatCommand,
      replaceAllStr_noop ("\x7bgroup\x7d") phPath msg.Path (by decide),
      replaceAllStr_noop ("\x7bgroup\x7d") phBase msg.Name (by decide),
      replaceAllStr_noop ("\x7bgroup\x7d") phDir msg.Dir (by decide),
      replaceAllStr_noop ("\x7bgroup\x7d") phSize (toString msg.Size) (by decide),
      replaceAllStr_noop ("\x7bgroup\x7d") phTime msg.Time.rfc3339 (by decide),
      replaceAllStr_noop ("\x7bgroup\x7d") phQPath (goQuote msg.Path) (by decide),
      replaceAllStr_noop ("\x7bgroup\x7d") phQBase (goQuote msg.Name) (by decide),
      replaceAllStr_noop ("\x7bgroup\x7d") phQDir (goQuote msg.Dir) (by decide),
      replaceAllStr_noop ("\x7bgroup\x7d") phQSize (goQuote (toString msg.Size)) (by decide),
      replaceAllStr_noop ("\x7bgroup\x7d") phQTime (goQuote msg.Time.rfc3339) (by decide),
      if_pos hv,
      replaceAllStr_noop ("\x7bgroup\x7d") phVersion msg.VersionID (by decide),
      replaceAllStr_noop ("\x7bgroup\x7d") phQVersion (goQuote msg.VersionID) (by decide)]
  · simp only [formatCommand,
      replaceAllStr_noop ("\x7btype\x7d") phPath msg.Path (by decide),
      replaceAllStr_noop ("\x7btype\x7d") phBase msg.Name (by decide),
      replaceAllStr_noop ("\x7btype\x7d") phDir msg.Dir (by decide),
      replaceAllStr_noop ("\x7btype\x7d") phSize (toString msg.Size) (by decide),
      replaceAllStr_noop ("\x7btype\x7d") phTime msg.Time.rfc3339 (by decide),
      replaceAllStr_noop ("\x7btype\x7d") phQPath (goQuote msg.Path) (by decide),
      replaceAllStr_noop ("\x7btype\x7d") phQBase (goQuote msg.Name) (by decide),
      replaceAllStr_noop ("\x7btype\x7d") phQDir (goQuote msg.Dir) (by decide),
      replaceAllStr_noop ("\x7btype\x7d") phQSize (goQuote (toString msg.Size)) (by decide),
      replaceAllStr_noop ("\x7btype\x7d") phQTime (goQuote msg.Time.rfc3339) (by decide),
      if_pos hv,
      replaceAllStr_noop ("\x7btype\x7d") phVersion msg.VersionID (by decide),
      replaceAllStr_noop ("\x7btype\x7d") phQVersion (goQuote msg.VersionID) (by decide)]
  · simp only [formatCommand,
      replaceAllStr_noop ("\x7bext\x7d") phPath msg.Path (by decide),
      replaceAllStr_noop ("\x7bext\x7d") phBase msg.Name (by decide),
      replaceAllStr_noop ("\x7bext\x7d") phDir msg.Dir (by decide),
      replaceAllStr_noop ("\x7bext\x7d") phSize (toString msg.Size) (by decide),
      replaceAllStr_noop ("\x7bext\x7d") phTime msg.Time.rfc3339 (by decide),
      replaceAllStr_noop ("\x7bext\x7d") phQPath (goQuote msg.Path) (by decide),
      replaceAllStr_noop ("\x7bext\x7d") phQBase (goQuote msg.Name) (by decide),
      replaceAllStr_noop ("\x7bext\x7d") phQDir (goQuote msg.Dir) (by decide),
      replaceAllStr_noop ("\x7bext\x7d") phQSize (goQuote (toString msg.Size)) (by decide),
      replaceAllStr_noop ("\x7bext\x7d") phQTime (goQuote msg.Time.rfc3339) (by decide),
      if_pos hv,
      replaceAllStr_noop ("\x7bext\x7d") phVersion msg.VersionID (by decide),
      replaceAllStr_noop ("\x7bext\x7d") phQVersion (goQuote msg.VersionID) (by decide)]
  · simp only [formatCommand,
      replaceAllStr_noop ("\x7bevent\x7d") phPath msg.Path (by decide),
      replaceAllStr_noop ("\x7bevent\x7d") phBase msg.Name (by decide),
      replaceAllStr_noop ("\x7bevent\x7d") phDir msg.Dir (by decide),
      replaceAllStr_noop ("\x7bevent\x7d") phSize (toString msg.Size) (by decide),
      replaceAllStr_noop ("\x7bevent\x7d") phTime msg.Time.rfc3339 (by decide),
      replaceAllStr_noop ("\x7bevent\x7d") phQPath (goQuote msg.Path) (by decide),
      replaceAllStr_noop ("\x7bevent\x7d") phQBase (goQuote msg.Name) (by decide),
      replaceAllStr_noop ("\x7bevent\x7d") phQDir (goQuote msg.Dir) (by decide),
      replaceAllStr_noop ("\x7bevent\x7d") phQSize (goQuote (toString msg.Size)) (by decide),
      replaceAllStr_noop ("\x7bevent\x7d") phQTime (goQuote msg.Time.rfc3339) (by decide),
      if_pos hv,
      replaceAllStr_noop ("\x7bevent\x7d") phVersion msg.VersionID (by decide),
      replaceAllStr_noop ("\x7bevent\x7d") phQVersion (goQuote msg.VersionID) (by decide)]

/-- The fixture message for the formatter witnesses. -/
def fmtMsgW : FindMessage :=
  { Path := "/r/a.go", Name := "a.go", Dir := "/r", Size := 30,
    Time := { unix := 0, rfc3339 := "2024-01-01T00:00:00Z" }, IsDir := false,
    VersionID := "v7" }

/-- C8 witness: the base-name placeholder formats to the base name on a
concrete message. -/
theorem formatCommand_placeholders_witness :
    formatCommand phBase fmtMsgW = fmtMsgW.Name :=
  (formatCommand_placeholders fmtMsgW (by decide) (by decide)).2.1

/-- C8 counterexample: the claim says substitution is single-pass, so
placeholder-shaped text inside a substituted value is never itself
substituted, and it lists the mode placeholder as recognised.  Formatting
the path placeholder for a message whose path is the literal base
placeholder yields the message name, showing the re-substitution; and the
mode placeholder is left literal, not replaced by the octal mode. -/
theorem formatCommand_counterexample :
    formatCommand phPath { Path := phBase, Name := "NAME" } = "NAME" ∧
    ("NAME" : String) ≠ phBase ∧
    formatCommand ("\x7bmode\x7d") { Path := "/r/a.go" } = "\x7bmode\x7d" :=
  ⟨by decide, by decide, by decide⟩

/-- C9: a template containing none of the recognised placeholders is
returned unchanged, and formatting is therefore idempotent on it. -/
theorem formatCommand_idempotent_no_placeholder (t : String) (msg : FindMessage)
    (h : ∀ p ∈ specRecognizedPlaceholders, containsSubstr p.toList t.toList = false) :
    formatCommand t msg = t ∧
    formatCommand (formatCommand t msg) msg = formatCommand t msg := by
  have n1 := replaceAllStr_noop t phPath msg.Path (h phPath (by simp [specRecognizedPlaceholders, implPlaceholders]))
  have n2 := replaceAllStr_noop t phBase msg.Name (h phBase (by simp [specRecognizedPlaceholders, implPlaceholders]))
  have n3 := replaceAllStr_noop t phDir msg.Dir (h phDir (by simp [specRecognizedPlaceholders, implPlaceholders]))
  have n4 := replaceAllStr_noop t phSize (toString msg.Size) (h phSize (by simp [specRecognizedPlaceholders, implPlaceholders]))
  have n5 := replaceAllStr_noop t phTime msg.Time.rfc3339 (h phTime (by simp [specRecognizedPlaceholders, implPlaceholders]))
  have n6 := replaceAllStr_noop t phQPath (goQuote msg.Path) (h phQPath (by simp [specRecognizedPlaceholders, implPlaceholders]))
  have n7 := replaceAllStr_noop t phQBase (goQuote msg.Name) (h phQBase (by simp [specRecognizedPlaceholders, implPlaceholders]))
  have n8 := replaceAllStr_noop t phQDir (goQuote msg.Dir) (h phQDir (by simp [specRecognizedPlaceholders, implPlaceholders]))
  have n9 := replaceAllStr_noop t phQSize (goQuote (toString msg.Size)) (h phQSize (by simp [specRecognizedPlaceholders, implPlaceholders]))
  have n10 := replaceAllStr_noop t phQTime (goQuote msg.Time.rfc3339) (h phQTime (by simp [specRecognizedPlaceholders, implPlaceholders]))
  have n11 := replaceAllStr_noop t phVersion msg.VersionID (h phVersion (by simp [specRecognizedPlaceholders, implPlaceholders]))
  have n12 := replaceAllStr_noop t phQVersion (goQuote msg.VersionID) (h phQVersion (by simp [specRecognizedPlaceholders, implPlaceholders]))
  have h1 : formatCommand t msg = t := by
    simp only [formatCommand, n1, n2, n3, n4, n5, n6, n7, n8, n9, n10, n11, n12, ite_self]
  exact ⟨h1, by rw [h1]; exact h1⟩

/-- C9 witness: a plain string without placeholders formats to itself. -/
theorem formatCommand_idempotent_witness :
    formatCommand ("hello world") {} = "hello world" :=
  (formatCommand_idempotent_no_placeholder ("hello world") {} (by decide)).1

end Stride

